import Mathlib

/-!
# Verification of `isilon_hadoop_tools`

A shallow embedding, in Lean 4, of the provisioning logic of the
`isilon_hadoop_tools` repository:

* `identities.py` — ordered, idempotent creation of groups, users and proxy
  users with monotonically allocated numeric IDs (`iterate_identities`,
  `Creator.create_group` / `create_user` / `create_proxy_user`,
  `Creator.next_gid` / `next_uid`, `with_suffix_applied`);
* `directories.py` — idempotent directory creation with ownership/mode
  enforcement and the root-path safety invariant
  (`Creator.create_directories`);
* `onefs.py` — the error classifier (`APIError.errors`), the retrying access
  wrapper (`accesses_onefs`) and the version-adaptive SDK selector
  (`sdk_for_revision`).

Remote calls are embedded as explicit call traces; the remote cluster is an
oracle (a function from a request to a response); Python exceptions become
explicit `Except`-style results.
-/

namespace IHT

/-! ## Identities: the call vocabulary and the catalog shape

`identities` in Python is a dict with keys `groups` (a set of names),
`users` (name -> (primary group name, set of secondary group names)) and
`proxy_users` (name -> set of (member name, member kind)).  Python sets and
dicts are embedded as lists carrying their iteration order. -/

/-- A remote call issued by `iterate_identities` / `Creator.create_identities`. -/
inductive Call where
  | create_group (group_name : String)
  | create_user (user_name pgroup_name : String)
  | add_user_to_group (user_name group_name : String)
  | create_proxy_user (proxy_user_name : String) (members : List (String × String))
  | flush_auth_cache
deriving DecidableEq, Repr

/-- The identities catalog: `groups`, `users`, `proxy_users` of `identities.py`,
with sets/dicts embedded as lists in iteration order. -/
structure Identities where
  groups : List String
  users : List (String × String × List String)
  proxy_users : List (String × List (String × String))
deriving DecidableEq, Repr

/-- The `created_group_names` set after the loop
`for g in gs: if g not in created: create_group(g); created.add(g)`. -/
def addNew (gs created : List String) : List String :=
  match gs with
  | [] => created
  | g :: gs' => if g ∈ created then addNew gs' created else addNew gs' (g :: created)

/-- The `create_group` calls issued by that same loop. -/
def newGroupCalls (gs created : List String) : List Call :=
  match gs with
  | [] => []
  | g :: gs' =>
    if g ∈ created then newGroupCalls gs' created
    else Call.create_group g :: newGroupCalls gs' (g :: created)

/-- The user phase of `iterate_identities`: for each user, first create the
missing referenced groups (`sgroup_names.union({pgroup_name})`, embedded as
`sg ++ [pg]`; the `created` check makes the duplicate harmless exactly as the
Python set union does), then `create_user`, then one `add_user_to_group` per
secondary group. -/
def usersPhase (users : List (String × String × List String)) (created : List String) :
    List Call :=
  match users with
  | [] => []
  | (u, pg, sg) :: rest =>
    newGroupCalls (sg ++ [pg]) created
      ++ (Call.create_user u pg ::
          (sg.map (fun g => Call.add_user_to_group u g)
            ++ usersPhase rest (addNew (sg ++ [pg]) created)))

/-- `iterate_identities` (identities.py:278-303): groups, then users (with
their missing groups created on demand), then proxy users. -/
def iterate_identities (ids : Identities) : List Call :=
  newGroupCalls ids.groups [] ++ usersPhase ids.users (addNew ids.groups [])
    ++ ids.proxy_users.map (fun pm => Call.create_proxy_user pm.1 pm.2)

/-- `Creator.create_identities` (identities.py:158-182): run
`iterate_identities`, then flush the auth cache exactly once at the end. -/
def create_identities_calls (ids : Identities) : List Call :=
  iterate_identities ids ++ [Call.flush_auth_cache]

example :
    create_identities_calls ⟨["hadoop"], [("hdfs", "hdfs", ["hadoop"])], []⟩ =
      [Call.create_group "hadoop", Call.create_group "hdfs",
       Call.create_user "hdfs" "hdfs", Call.add_user_to_group "hdfs" "hadoop",
       Call.flush_auth_cache] := by
  decide

/-- The group name a call creates, if it is a `create_group` call. -/
def groupNameOf : Call → Option String
  | Call.create_group g => some g
  | _ => none

/-- Whether a call is a `create_proxy_user` call. -/
def isProxyCall : Call → Bool
  | Call.create_proxy_user _ _ => true
  | _ => false

/-- Whether a call is a `create_user` call. -/
def isUserCall : Call → Bool
  | Call.create_user _ _ => true
  | _ => false

lemma addNew_subset (gs : List String) :
    ∀ created, created ⊆ addNew gs created := by
  induction gs with
  | nil => intro created; simp [addNew]
  | cons g gs ih =>
    intro created
    simp only [addNew]
    split
    · exact ih created
    · exact fun x hx => ih (g :: created) (List.mem_cons_of_mem _ hx)

lemma mem_addNew (gs : List String) :
    ∀ created g, g ∈ gs → g ∈ addNew gs created := by
  induction gs with
  | nil => intro _ _ h; simp at h
  | cons a gs ih =>
    intro created g hg
    simp only [addNew]
    rcases List.mem_cons.mp hg with rfl | hg
    · split
      · next h => exact addNew_subset gs created h
      · exact addNew_subset gs _ (List.mem_cons_self _ _)
    · split
      · exact ih created g hg
      · exact ih _ g hg

lemma createGroup_mem_of_mem_addNew (gs : List String) :
    ∀ created g, g ∈ addNew gs created →
      g ∈ created ∨ Call.create_group g ∈ newGroupCalls gs created := by
  induction gs with
  | nil => intro created g h; simp only [addNew] at h; exact Or.inl h
  | cons a gs ih =>
    intro created g h
    simp only [addNew] at h
    simp only [newGroupCalls]
    by_cases hac : a ∈ created
    · rw [if_pos hac] at h; rw [if_pos hac]; exact ih created g h
    · rw [if_neg hac] at h; rw [if_neg hac]
      rcases ih _ g h with hc | hm
      · rcases List.mem_cons.mp hc with rfl | hc
        · exact Or.inr (List.mem_cons_self _ _)
        · exact Or.inl hc
      · exact Or.inr (List.mem_cons_of_mem _ hm)

lemma newGroupCalls_shape (gs : List String) :
    ∀ created c, c ∈ newGroupCalls gs created →
      ∃ g, c = Call.create_group g ∧ g ∉ created ∧ g ∈ addNew gs created := by
  induction gs with
  | nil => intro created c h; simp [newGroupCalls] at h
  | cons a gs ih =>
    intro created c h
    simp only [newGroupCalls] at h
    simp only [addNew]
    by_cases hac : a ∈ created
    · rw [if_pos hac] at h; rw [if_pos hac]; exact ih created c h
    · rw [if_neg hac] at h; rw [if_neg hac]
      rcases List.mem_cons.mp h with rfl | h
      · exact ⟨a, rfl, hac, addNew_subset gs _ (List.mem_cons_self _ _)⟩
      · obtain ⟨g, rfl, hgc, hmem⟩ := ih _ c h
        exact ⟨g, rfl, fun hg => hgc (List.mem_cons_of_mem _ hg), hmem⟩

lemma newGroupCalls_names (gs : List String) :
    ∀ created,
      ((newGroupCalls gs created).filterMap groupNameOf).Nodup ∧
      ∀ g ∈ (newGroupCalls gs created).filterMap groupNameOf,
        g ∉ created ∧ g ∈ addNew gs created := by
  induction gs with
  | nil => intro created; simp [newGroupCalls]
  | cons a gs ih =>
    intro created
    simp only [newGroupCalls]
    simp only [addNew]
    by_cases hac : a ∈ created
    · rw [if_pos hac, if_pos hac]; exact ih created
    · rw [if_neg hac, if_neg hac]
      obtain ⟨hnd, hmem⟩ := ih (a :: created)
      have hred :
          (Call.create_group a :: newGroupCalls gs (a :: created)).filterMap groupNameOf =
            a :: (newGroupCalls gs (a :: created)).filterMap groupNameOf := by
        simp [groupNameOf]
      rw [hred]
      constructor
      · exact List.nodup_cons.mpr
          ⟨fun h => (hmem a h).1 (List.mem_cons_self _ _), hnd⟩
      · intro g hg
        rcases List.mem_cons.mp hg with rfl | hg
        · exact ⟨hac, addNew_subset gs _ (List.mem_cons_self _ _)⟩
        · exact ⟨fun h => (hmem g hg).1 (List.mem_cons_of_mem _ h), (hmem g hg).2⟩

lemma usersPhase_shape (us : List (String × String × List String)) :
    ∀ created c, c ∈ usersPhase us created →
      (∃ g, c = Call.create_group g) ∨ (∃ u pg, c = Call.create_user u pg) ∨
      (∃ u g, c = Call.add_user_to_group u g) := by
  induction us with
  | nil => intro _ c h; simp [usersPhase] at h
  | cons hd rest ih =>
    obtain ⟨u, pg, sg⟩ := hd
    intro created c h
    simp only [usersPhase, List.mem_append, List.mem_cons] at h
    rcases h with h | h | h
    · obtain ⟨g, rfl, -, -⟩ := newGroupCalls_shape _ _ _ h
      exact Or.inl ⟨g, rfl⟩
    · exact Or.inr (Or.inl ⟨u, pg, h⟩)
    · rcases h with h | h
      · obtain ⟨g, -, rfl⟩ := List.mem_map.mp h
        exact Or.inr (Or.inr ⟨u, g, rfl⟩)
      · exact ih _ c h

lemma usersPhase_names (us : List (String × String × List String)) :
    ∀ created,
      ((usersPhase us created).filterMap groupNameOf).Nodup ∧
      ∀ g ∈ (usersPhase us created).filterMap groupNameOf, g ∉ created := by
  induction us with
  | nil => intro created; simp [usersPhase]
  | cons hd rest ih =>
    obtain ⟨u, pg, sg⟩ := hd
    intro created
    obtain ⟨hndA, hmemA⟩ := newGroupCalls_names (sg ++ [pg]) created
    obtain ⟨hndR, hmemR⟩ := ih (addNew (sg ++ [pg]) created)
    have hadds : (sg.map fun g => Call.add_user_to_group u g).filterMap groupNameOf = [] := by
      simp [List.filterMap_eq_nil_iff, groupNameOf]
    have hred :
        (usersPhase ((u, pg, sg) :: rest) created).filterMap groupNameOf =
          (newGroupCalls (sg ++ [pg]) created).filterMap groupNameOf ++
            (usersPhase rest (addNew (sg ++ [pg]) created)).filterMap groupNameOf := by
      simp only [usersPhase, List.filterMap_append, List.filterMap_cons]
      simp [groupNameOf, hadds]
    rw [hred]
    constructor
    · refine List.nodup_append.mpr ⟨hndA, hndR, ?_⟩
      intro g hgA hgR
      exact hmemR g hgR (hmemA g hgA).2
    · intro g hg
      rcases List.mem_append.mp hg with hg | hg
      · exact (hmemA g hg).1
      · exact fun h => hmemR g hg (addNew_subset _ _ h)

lemma usersPhase_order (us : List (String × String × List String)) :
    ∀ created u pg sg, (u, pg, sg) ∈ us →
      ∃ l₁ l₂, usersPhase us created = l₁ ++ Call.create_user u pg :: l₂ ∧
        (∀ g, (g = pg ∨ g ∈ sg) → g ∈ created ∨ Call.create_group g ∈ l₁) ∧
        (∀ g ∈ sg, Call.add_user_to_group u g ∈ l₂) := by
  induction us with
  | nil => intro _ _ _ _ h; simp at h
  | cons hd rest ih =>
    obtain ⟨u₀, pg₀, sg₀⟩ := hd
    intro created u pg sg hmem
    rcases List.mem_cons.mp hmem with heq | hmem
    · injection heq with h1 h2
      injection h2 with h3 h4
      subst h1; subst h3; subst h4
      refine ⟨newGroupCalls (sg ++ [pg]) created,
        (sg.map fun g => Call.add_user_to_group u g) ++
          usersPhase rest (addNew (sg ++ [pg]) created), rfl, ?_, ?_⟩
      · intro g hg
        have hgm : g ∈ sg ++ [pg] := by
          rcases hg with rfl | hg
          · exact List.mem_append.mpr (Or.inr (List.mem_singleton.mpr rfl))
          · exact List.mem_append.mpr (Or.inl hg)
        exact createGroup_mem_of_mem_addNew _ _ _ (mem_addNew _ _ _ hgm)
      · intro g hg
        exact List.mem_append.mpr (Or.inl (List.mem_map.mpr ⟨g, hg, rfl⟩))
    · obtain ⟨l₁, l₂, heq, hgroups, hadds⟩ := ih (addNew (sg₀ ++ [pg₀]) created) u pg sg hmem
      refine ⟨newGroupCalls (sg₀ ++ [pg₀]) created ++
        (Call.create_user u₀ pg₀ :: ((sg₀.map fun g => Call.add_user_to_group u₀ g) ++ l₁)),
        l₂, ?_, ?_, fun g hg => hadds g hg⟩
      · simp only [usersPhase, heq]
        simp
      · intro g hg
        rcases hgroups g hg with hc | hl
        · rcases createGroup_mem_of_mem_addNew _ _ _ hc with hc | hcall
          · exact Or.inl hc
          · exact Or.inr (List.mem_append.mpr (Or.inl hcall))
        · exact Or.inr (List.mem_append.mpr (Or.inr
            (List.mem_cons_of_mem _ (List.mem_append.mpr (Or.inr hl)))))

lemma flush_not_mem_iterate (ids : Identities) :
    Call.flush_auth_cache ∉ iterate_identities ids := by
  intro h
  simp only [iterate_identities, List.mem_append] at h
  rcases h with (h | h) | h
  · obtain ⟨g, hg, -, -⟩ := newGroupCalls_shape _ _ _ h
    exact Call.noConfusion hg
  · rcases usersPhase_shape _ _ _ h with ⟨g, hg⟩ | ⟨u, pg, hg⟩ | ⟨u, g, hg⟩ <;>
      exact Call.noConfusion hg
  · obtain ⟨pm, -, hg⟩ := List.mem_map.mp h
    exact Call.noConfusion hg

/-- **C1.** For every identities catalog, `create_identities` issues its calls
so that: every group referenced by a user (primary or secondary) gets a
`create_group` call before that user's `create_user` call, and each
`add_user_to_group` for the user's secondary groups comes after the
`create_user`; all `create_proxy_user` calls come after all `create_user`
calls; no group name is the subject of two `create_group` calls; and
`flush_auth_cache` is the final call and occurs exactly once, even for the
empty catalog.  On the concrete catalog
groups = {"hadoop"}, users = {"hdfs" ↦ ("hdfs", {"hadoop"})}, no proxy users,
the emitted order is [create_group "hadoop", create_group "hdfs",
create_user "hdfs" "hdfs", add_user_to_group "hdfs" "hadoop",
flush_auth_cache]. -/
theorem create_identities_ordering (ids : Identities) :
    (∀ u pg sg, (u, pg, sg) ∈ ids.users →
      ∃ l₁ l₂, create_identities_calls ids = l₁ ++ Call.create_user u pg :: l₂ ∧
        (∀ g, (g = pg ∨ g ∈ sg) → Call.create_group g ∈ l₁) ∧
        (∀ g ∈ sg, Call.add_user_to_group u g ∈ l₂)) ∧
    (∃ A B, create_identities_calls ids = A ++ B ++ [Call.flush_auth_cache] ∧
      (∀ c ∈ A, isProxyCall c = false) ∧ (∀ c ∈ B, isUserCall c = false)) ∧
    ((create_identities_calls ids).filterMap groupNameOf).Nodup ∧
    (create_identities_calls ids).count Call.flush_auth_cache = 1 ∧
    create_identities_calls ⟨["hadoop"], [("hdfs", "hdfs", ["hadoop"])], []⟩ =
      [Call.create_group "hadoop", Call.create_group "hdfs",
       Call.create_user "hdfs" "hdfs", Call.add_user_to_group "hdfs" "hadoop",
       Call.flush_auth_cache] := by
  refine ⟨?_, ?_, ?_, ?_, by decide⟩
  · intro u pg sg hmem
    obtain ⟨l₁, l₂, heq, hgroups, hadds⟩ :=
      usersPhase_order ids.users (addNew ids.groups []) u pg sg hmem
    refine ⟨newGroupCalls ids.groups [] ++ l₁,
      l₂ ++ (ids.proxy_users.map fun pm => Call.create_proxy_user pm.1 pm.2) ++
        [Call.flush_auth_cache], ?_, ?_, ?_⟩
    · simp only [create_identities_calls, iterate_identities, heq]
      simp
    · intro g hg
      rcases hgroups g hg with hc | hl
      · rcases createGroup_mem_of_mem_addNew _ _ _ hc with hc | hcall
        · simp at hc
        · exact List.mem_append.mpr (Or.inl hcall)
      · exact List.mem_append.mpr (Or.inr hl)
    · intro g hg
      exact List.mem_append.mpr (Or.inl (List.mem_append.mpr (Or.inl (hadds g hg))))
  · refine ⟨newGroupCalls ids.groups [] ++ usersPhase ids.users (addNew ids.groups []),
      ids.proxy_users.map fun pm => Call.create_proxy_user pm.1 pm.2, ?_, ?_, ?_⟩
    · simp [create_identities_calls, iterate_identities]
    · intro c hc
      rcases List.mem_append.mp hc with hc | hc
      · obtain ⟨g, rfl, -, -⟩ := newGroupCalls_shape _ _ _ hc
        rfl
      · rcases usersPhase_shape _ _ _ hc with ⟨g, rfl⟩ | ⟨u, pg, rfl⟩ | ⟨u, g, rfl⟩ <;> rfl
    · intro c hc
      obtain ⟨pm, -, rfl⟩ := List.mem_map.mp hc
      rfl
  · have hfl : (([Call.flush_auth_cache] : List Call)).filterMap groupNameOf = [] := by
      simp [groupNameOf]
    have hpx :
        ((ids.proxy_users.map fun pm => Call.create_proxy_user pm.1 pm.2).filterMap
          groupNameOf) = [] := by
      simp [List.filterMap_eq_nil_iff, groupNameOf]
    obtain ⟨hndA, hmemA⟩ := newGroupCalls_names ids.groups []
    obtain ⟨hndU, hmemU⟩ := usersPhase_names ids.users (addNew ids.groups [])
    have hred :
        (create_identities_calls ids).filterMap groupNameOf =
          (newGroupCalls ids.groups []).filterMap groupNameOf ++
            (usersPhase ids.users (addNew ids.groups [])).filterMap groupNameOf := by
      simp only [create_identities_calls, iterate_identities, List.filterMap_append,
        hfl, hpx]
      simp
    rw [hred]
    refine List.nodup_append.mpr ⟨hndA, hndU, ?_⟩
    intro g hgA hgU
    exact hmemU g hgU (hmemA g hgA).2
  · simp only [create_identities_calls, List.count_append]
    rw [List.count_eq_zero.mpr (flush_not_mem_iterate ids)]
    simp

/-- Witness for C1 at the concrete catalog of the end-to-end scenario. -/
theorem create_identities_ordering_witness :
    ∃ l₁ l₂,
      create_identities_calls ⟨["hadoop"], [("hdfs", "hdfs", ["hadoop"])], []⟩ =
        l₁ ++ Call.create_user "hdfs" "hdfs" :: l₂ ∧
      (∀ g, (g = "hdfs" ∨ g ∈ ["hadoop"]) → Call.create_group g ∈ l₁) ∧
      (∀ g ∈ ["hadoop"], Call.add_user_to_group "hdfs" g ∈ l₂) :=
  (create_identities_ordering ⟨["hadoop"], [("hdfs", "hdfs", ["hadoop"])], []⟩).1
    "hdfs" "hdfs" ["hadoop"] (by simp)

/-! ## The ID allocator and the conflict-handling creation loops

`Creator.next_gid` / `next_uid` (identities.py:75-89) return the current
counter value and advance it; `create_group` / `create_user`
(identities.py:124-156, 225-275) loop on "ID already exists" conflicts and
reconcile "name already exists" conflicts by fetching the remote ID.  The
remote cluster is an oracle mapping a (name, id) attempt to a response; the
`while True:` loop is given explicit fuel (`none` = still looping). -/

/-- One `next_gid`/`next_uid` access: the handed-out ID and the new counter. -/
def nextId (s : Nat) : Nat × Nat := (s, s + 1)

/-- The IDs handed out by `n` successive allocator accesses starting from
counter `s`. -/
def idsTaken (s : Nat) : Nat → List Nat
  | 0 => []
  | n + 1 => (nextId s).1 :: idsTaken (nextId s).2 n

/-- `[s, s+1, ..., s+n-1]`: the canonical form of consecutive allocations. -/
def consec (s : Nat) : Nat → List Nat
  | 0 => []
  | n + 1 => s :: consec (s + 1) n

/-- `APIError.gid_already_exists_error_format.format(gid)` (onefs.py:267). -/
def gid_already_exists_error_format (gid : Nat) : String :=
  "Group already exists with gid '" ++ toString gid ++ "'"

/-- `APIError.group_already_exists_error_format.format(name)` (onefs.py:268). -/
def group_already_exists_error_format (name : String) : String :=
  "Group '" ++ name ++ "' already exists"

/-- `APIError.uid_already_exists_error_format.format(uid)` (onefs.py:284). -/
def uid_already_exists_error_format (uid : Nat) : String :=
  "User already exists with uid '" ++ toString uid ++ "'"

/-- `APIError.user_already_exists_error_format.format(name)` (onefs.py:285). -/
def user_already_exists_error_format (name : String) : String :=
  "User '" ++ name ++ "' already exists"

/-- `APIError.proxy_user_already_exists_error_format.format(name)` (onefs.py:282). -/
def proxy_user_already_exists_error_format (name : String) : String :=
  "Proxyuser '" ++ name ++ "' already exists"

/-- `APIError.gid_already_exists_error(gid)` (onefs.py:327-333): some error
message equals the formatted template. -/
def gid_already_exists_error (msgs : List String) (gid : Nat) : Bool :=
  msgs.any (fun m => m == gid_already_exists_error_format gid)

/-- `APIError.group_already_exists_error(name)` (onefs.py:335-343). -/
def group_already_exists_error (msgs : List String) (name : String) : Bool :=
  msgs.any (fun m => m == group_already_exists_error_format name)

/-- `APIError.uid_already_exists_error(uid)` (onefs.py:405-411). -/
def uid_already_exists_error (msgs : List String) (uid : Nat) : Bool :=
  msgs.any (fun m => m == uid_already_exists_error_format uid)

/-- `APIError.user_already_exists_error(name)` (onefs.py:413-421). -/
def user_already_exists_error (msgs : List String) (name : String) : Bool :=
  msgs.any (fun m => m == user_already_exists_error_format name)

/-- `APIError.proxy_user_already_exists_error(name)` (onefs.py:385-394). -/
def proxy_user_already_exists_error (msgs : List String) (name : String) : Bool :=
  msgs.any (fun m => m == proxy_user_already_exists_error_format name)

/-- A remote creation attempt either succeeds or raises an `APIError`
carrying the listed error messages. -/
inductive CreateResp where
  | ok
  | apiErr (msgs : List String)
deriving DecidableEq, Repr

/-- `Creator.create_group` (identities.py:124-156).  `resp name gid` is the
cluster's response to `onefs.create_group(name, gid)`; `gid_of_group` is the
remote lookup used on a name conflict.  The state is the `_next_gid` counter.
The result carries the returned-or-raised outcome, the new counter, and the
list of GIDs allocated (one per loop iteration); `none` means the fuel ran
out while the `while True:` loop was still retrying. -/
def create_group (resp : String → Nat → CreateResp) (gid_of_group : String → Nat)
    (name : String) : Nat → Nat → Option (Except (List String) Nat × Nat × List Nat)
  | 0, _ => none
  | fuel + 1, s =>
    let gid := (nextId s).1
    let s' := (nextId s).2
    match resp name gid with
    | CreateResp.ok => some (Except.ok gid, s', [gid])
    | CreateResp.apiErr msgs =>
      if gid_already_exists_error msgs gid then
        match create_group resp gid_of_group name fuel s' with
        | none => none
        | some (r, s'', gids) => some (r, s'', gid :: gids)
      else if group_already_exists_error msgs name then
        some (Except.ok (gid_of_group name), s', [gid])
      else
        some (Except.error msgs, s', [gid])

/-- `Creator.create_user` (identities.py:225-275), the UID analogue of
`create_group`; `resp name uid` answers
`onefs.create_user(name, uid, primary_group_name)` and `uid_of_user` is the
remote lookup used on a name conflict. -/
def create_user (resp : String → Nat → CreateResp) (uid_of_user : String → Nat)
    (name : String) : Nat → Nat → Option (Except (List String) Nat × Nat × List Nat)
  | 0, _ => none
  | fuel + 1, s =>
    let uid := (nextId s).1
    let s' := (nextId s).2
    match resp name uid with
    | CreateResp.ok => some (Except.ok uid, s', [uid])
    | CreateResp.apiErr msgs =>
      if uid_already_exists_error msgs uid then
        match create_user resp uid_of_user name fuel s' with
        | none => none
        | some (r, s'', uids) => some (r, s'', uid :: uids)
      else if user_already_exists_error msgs name then
        some (Except.ok (uid_of_user name), s', [uid])
      else
        some (Except.error msgs, s', [uid])

/-- `Creator.create_proxy_user` (identities.py:196-216): no loop, no ID; an
"already exists" conflict is success, anything else propagates. -/
def create_proxy_user (resp : String → CreateResp) (name : String) :
    Except (List String) Unit :=
  match resp name with
  | CreateResp.ok => Except.ok ()
  | CreateResp.apiErr msgs =>
    if proxy_user_already_exists_error msgs name then Except.ok ()
    else Except.error msgs

/-- Run a sequence of `create_group` calls, threading the GID counter and
collecting every allocated GID (also the ones whose attempt failed). -/
def runCreates (resp : String → Nat → CreateResp) (gid_of_group : String → Nat)
    (fuel : Nat) : List String → Nat → Option (Nat × List Nat)
  | [], s => some (s, [])
  | name :: rest, s =>
    match create_group resp gid_of_group name fuel s with
    | none => none
    | some (_, s', gids) =>
      match runCreates resp gid_of_group fuel rest s' with
      | none => none
      | some (s'', allGids) => some (s'', gids ++ allGids)

lemma consec_length (n : Nat) : ∀ s, (consec s n).length = n := by
  induction n with
  | zero => intro s; rfl
  | succ n ih => intro s; simp [consec, ih]

lemma consec_chain (n : Nat) : ∀ s, List.Chain' (· < ·) (consec s n) := by
  induction n with
  | zero => intro s; simp [consec]
  | succ n ih =>
    intro s
    cases n with
    | zero => simp [consec]
    | succ m =>
      refine List.chain'_cons.mpr ⟨Nat.lt_succ_self s, ih (s + 1)⟩

lemma mem_consec (n : Nat) : ∀ s i, i ∈ consec s n → s ≤ i ∧ i < s + n := by
  induction n with
  | zero => intro s i h; simp [consec] at h
  | succ n ih =>
    intro s i h
    rcases List.mem_cons.mp h with rfl | h
    · omega
    · have := ih (s + 1) i h
      omega

lemma consec_nodup (n : Nat) : ∀ s, (consec s n).Nodup := by
  induction n with
  | zero => intro s; simp [consec]
  | succ n ih =>
    intro s
    refine List.nodup_cons.mpr ⟨fun h => ?_, ih (s + 1)⟩
    have := mem_consec n (s + 1) s h
    omega

lemma consec_append (k : Nat) :
    ∀ s m, consec s k ++ consec (s + k) m = consec s (k + m) := by
  induction k with
  | zero => intro s m; simp [consec]
  | succ k ih =>
    intro s m
    simp only [consec, List.cons_append]
    rw [show s + (k + 1) = s + 1 + k by omega, ih (s + 1) m]
    rw [show k + 1 + m = k + m + 1 by omega]
    simp [consec]

lemma idsTaken_eq_consec (n : Nat) : ∀ s, idsTaken s n = consec s n := by
  induction n with
  | zero => intro s; rfl
  | succ n ih => intro s; simp [idsTaken, consec, nextId, ih]

lemma create_group_ids (resp : String → Nat → CreateResp) (gid_of_group : String → Nat)
    (name : String) :
    ∀ fuel s r s' gids,
      create_group resp gid_of_group name fuel s = some (r, s', gids) →
      ∃ k, 0 < k ∧ gids = consec s k ∧ s' = s + k := by
  intro fuel
  induction fuel with
  | zero => intro s r s' gids h; exact absurd h (by simp [create_group])
  | succ fuel ih =>
    intro s r s' gids h
    cases hresp : resp name s with
    | ok =>
      simp only [create_group, nextId, hresp, Option.some.injEq, Prod.mk.injEq] at h
      obtain ⟨-, h2, h3⟩ := h
      refine ⟨1, by omega, ?_, by omega⟩
      rw [← h3]; simp [consec]
    | apiErr msgs =>
      simp only [create_group, nextId, hresp] at h
      by_cases hgid : gid_already_exists_error msgs s = true
      · rw [if_pos hgid] at h
        cases hrec : create_group resp gid_of_group name fuel (s + 1) with
        | none => rw [hrec] at h; exact absurd h (by simp)
        | some out =>
          obtain ⟨r₀, s₀, gids₀⟩ := out
          rw [hrec] at h
          simp only [Option.some.injEq, Prod.mk.injEq] at h
          obtain ⟨-, h2, h3⟩ := h
          obtain ⟨k, hk, hg, hs⟩ := ih (s + 1) r₀ s₀ gids₀ hrec
          refine ⟨k + 1, by omega, ?_, by omega⟩
          rw [← h3, hg]
          simp [consec]
      · rw [if_neg hgid] at h
        by_cases hname : group_already_exists_error msgs name = true
        · rw [if_pos hname] at h
          simp only [Option.some.injEq, Prod.mk.injEq] at h
          obtain ⟨-, h2, h3⟩ := h
          exact ⟨1, by omega, by rw [← h3]; simp [consec], by omega⟩
        · rw [if_neg hname] at h
          simp only [Option.some.injEq, Prod.mk.injEq] at h
          obtain ⟨-, h2, h3⟩ := h
          exact ⟨1, by omega, by rw [← h3]; simp [consec], by omega⟩

lemma runCreates_ids (resp : String → Nat → CreateResp) (gid_of_group : String → Nat)
    (fuel : Nat) (names : List String) :
    ∀ s s' all, runCreates resp gid_of_group fuel names s = some (s', all) →
      ∃ k, all = consec s k ∧ s' = s + k := by
  induction names with
  | nil =>
    intro s s' all h
    simp only [runCreates, Option.some.injEq, Prod.mk.injEq] at h
    obtain ⟨rfl, rfl⟩ := h
    exact ⟨0, rfl, by omega⟩
  | cons name rest ih =>
    intro s s' all h
    cases hc : create_group resp gid_of_group name fuel s with
    | none => simp only [runCreates, hc] at h; exact absurd h (by simp)
    | some out =>
      obtain ⟨r₀, s₀, gids₀⟩ := out
      simp only [runCreates, hc] at h
      cases hr : runCreates resp gid_of_group fuel rest s₀ with
      | none => rw [hr] at h; exact absurd h (by simp)
      | some out₂ =>
        obtain ⟨s₁, all₁⟩ := out₂
        rw [hr] at h
        simp only [Option.some.injEq, Prod.mk.injEq] at h
        obtain ⟨rfl, h2⟩ := h
        obtain ⟨k, -, hg, hs⟩ := create_group_ids resp gid_of_group name fuel s r₀ s₀ gids₀ hc
        obtain ⟨m, hall, hs₁⟩ := ih s₀ s₁ all₁ hr
        refine ⟨k + m, ?_, by omega⟩
        rw [← h2, hg, hall, hs]
        exact consec_append k s m

lemma create_user_ids (resp : String → Nat → CreateResp) (uid_of_user : String → Nat)
    (name : String) :
    ∀ fuel s r s' uids,
      create_user resp uid_of_user name fuel s = some (r, s', uids) →
      ∃ k, 0 < k ∧ uids = consec s k ∧ s' = s + k := by
  intro fuel
  induction fuel with
  | zero => intro s r s' uids h; exact absurd h (by simp [create_user])
  | succ fuel ih =>
    intro s r s' uids h
    cases hresp : resp name s with
    | ok =>
      simp only [create_user, nextId, hresp, Option.some.injEq, Prod.mk.injEq] at h
      obtain ⟨-, h2, h3⟩ := h
      refine ⟨1, by omega, ?_, by omega⟩
      rw [← h3]; simp [consec]
    | apiErr msgs =>
      simp only [create_user, nextId, hresp] at h
      by_cases huid : uid_already_exists_error msgs s = true
      · rw [if_pos huid] at h
        cases hrec : create_user resp uid_of_user name fuel (s + 1) with
        | none => rw [hrec] at h; exact absurd h (by simp)
        | some out =>
          obtain ⟨r₀, s₀, uids₀⟩ := out
          rw [hrec] at h
          simp only [Option.some.injEq, Prod.mk.injEq] at h
          obtain ⟨-, h2, h3⟩ := h
          obtain ⟨k, hk, hg, hs⟩ := ih (s + 1) r₀ s₀ uids₀ hrec
          refine ⟨k + 1, by omega, ?_, by omega⟩
          rw [← h3, hg]
          simp [consec]
      · rw [if_neg huid] at h
        by_cases hname : user_already_exists_error msgs name = true
        · rw [if_pos hname] at h
          simp only [Option.some.injEq, Prod.mk.injEq] at h
          obtain ⟨-, h2, h3⟩ := h
          exact ⟨1, by omega, by rw [← h3]; simp [consec], by omega⟩
        · rw [if_neg hname] at h
          simp only [Option.some.injEq, Prod.mk.injEq] at h
          obtain ⟨-, h2, h3⟩ := h
          exact ⟨1, by omega, by rw [← h3]; simp [consec], by omega⟩

/-- The default counter floors of `Creator` (identities.py:58-59). -/
def default_start_uid : Nat := 1025

/-- The default GID floor of `Creator` (identities.py:58-59). -/
def default_start_gid : Nat := 1025

/-- **C2.** IDs handed out by one `Creator`'s allocator are strictly
increasing, starting at the configured floor (default 1025), and are never
reused — even across "already exists" conflicts inside `create_group` and
`create_user` retries, since the counter advances on every attempt: a
single terminating `create_user` call allocates the consecutive block from
its starting counter, and any run of `create_group` calls that terminates
allocated exactly the consecutive block `[start, start + k)`, so the
complete allocation list is duplicate-free, strictly increasing, and begins
at the configured start. -/
theorem allocated_ids_strictly_increasing :
    default_start_uid = 1025 ∧ default_start_gid = 1025 ∧
    (∀ s n, idsTaken s n = consec s n) ∧
    (∀ resp uid_of_user name fuel s r s' uids,
      create_user resp uid_of_user name fuel s = some (r, s', uids) →
      uids = consec s uids.length ∧ s' = s + uids.length ∧ uids ≠ []) ∧
    (∀ resp gid_of_group names fuel start s' all,
      runCreates resp gid_of_group fuel names start = some (s', all) →
      List.Chain' (· < ·) all ∧ all.Nodup ∧ s' = start + all.length ∧
      (∀ i ∈ all, start ≤ i) ∧ (all ≠ [] → all.head? = some start)) := by
  refine ⟨rfl, rfl, fun s n => idsTaken_eq_consec n s, ?_, ?_⟩
  · intro resp uid_of_user name fuel s r s' uids h
    obtain ⟨k, hk, rfl, rfl⟩ := create_user_ids resp uid_of_user name fuel s r s' uids h
    rw [consec_length]
    refine ⟨rfl, rfl, ?_⟩
    cases k with
    | zero => omega
    | succ m => simp [consec]
  · intro resp gid_of_group names fuel start s' all h
    obtain ⟨k, rfl, rfl⟩ := runCreates_ids resp gid_of_group fuel names start s' all h
    refine ⟨consec_chain k start, consec_nodup k start, by rw [consec_length], ?_, ?_⟩
    · intro i hi; exact (mem_consec k start i hi).1
    · intro hne
      cases k with
      | zero => simp [consec] at hne
      | succ m => simp [consec]

/-- Witness for C2: two `create_group` calls starting at the default floor,
the first of which suffers one GID conflict; the allocated GIDs are
1025, 1026, 1027 — strictly increasing from 1025 with no reuse. -/
theorem allocated_ids_strictly_increasing_witness :
    runCreates
        (fun _ gid => if gid = 1025 then
          CreateResp.apiErr [gid_already_exists_error_format 1025] else CreateResp.ok)
        (fun _ => 0) 5 ["hadoop", "hdfs"] 1025 = some (1028, [1025, 1026, 1027]) ∧
      (List.Chain' (· < ·) [1025, 1026, 1027] ∧ ([1025, 1026, 1027] : List Nat).Nodup ∧
        1028 = 1025 + ([1025, 1026, 1027] : List Nat).length ∧
        (∀ i ∈ [1025, 1026, 1027], 1025 ≤ i) ∧
        (([1025, 1026, 1027] : List Nat) ≠ [] →
          ([1025, 1026, 1027] : List Nat).head? = some 1025)) :=
  ⟨by decide,
    allocated_ids_strictly_increasing.2.2.2.2
      (fun _ gid => if gid = 1025 then
        CreateResp.apiErr [gid_already_exists_error_format 1025] else CreateResp.ok)
      (fun _ => 0) ["hadoop", "hdfs"] 5 1025 1028 [1025, 1026, 1027] (by decide)⟩

lemma create_group_gid_conflict_step (resp : String → Nat → CreateResp)
    (gid_of_group : String → Nat) (name : String) (fuel s : Nat) (msgs : List String)
    (hresp : resp name s = CreateResp.apiErr msgs)
    (hgid : gid_already_exists_error msgs s = true) :
    create_group resp gid_of_group name (fuel + 1) s =
      (create_group resp gid_of_group name fuel (s + 1)).map
        (fun out => (out.1, out.2.1, s :: out.2.2)) := by
  simp only [create_group, nextId, hresp, if_pos hgid]
  cases hrec : create_group resp gid_of_group name fuel (s + 1) with
  | none => simp
  | some out => obtain ⟨r, s', gids⟩ := out; simp

lemma create_group_retries (resp : String → Nat → CreateResp)
    (gid_of_group : String → Nat) (name : String) :
    ∀ k s fuel,
      (∀ i, i < k → ∃ msgs, resp name (s + i) = CreateResp.apiErr msgs ∧
        gid_already_exists_error msgs (s + i) = true) →
      resp name (s + k) = CreateResp.ok →
      create_group resp gid_of_group name (fuel + k + 1) s =
        some (Except.ok (s + k), s + k + 1, consec s (k + 1)) := by
  intro k
  induction k with
  | zero =>
    intro s fuel hconf hok
    simp only [Nat.add_zero] at hok ⊢
    simp [create_group, nextId, hok, consec]
  | succ k ih =>
    intro s fuel hconf hok
    obtain ⟨msgs, hresp, hgid⟩ := hconf 0 (by omega)
    rw [show s + 0 = s from rfl] at hresp hgid
    rw [show fuel + (k + 1) + 1 = (fuel + k + 1) + 1 by omega]
    have hrec := ih (s + 1) fuel
      (fun i hi => by
        obtain ⟨m, h1, h2⟩ := hconf (i + 1) (by omega)
        rw [show s + (i + 1) = s + 1 + i by omega] at h1 h2
        exact ⟨m, h1, h2⟩)
      (by rw [show s + 1 + k = s + (k + 1) by omega]; exact hok)
    rw [create_group_gid_conflict_step resp gid_of_group name (fuel + k + 1) s msgs
      hresp hgid, hrec]
    have e1 : s + 1 + k = s + (k + 1) := by omega
    rw [Option.map_some', e1]
    simp [consec]

/-- **C3.** Conflict handling of `Creator.create_group`, `create_user` and
`create_proxy_user`: a "GID already exists" `APIError` for the just-allocated
GID makes `create_group` retry with a freshly allocated GID (and a run of `k`
such conflicts followed by success returns the `k`-th fresh GID); a "group
name already exists" `APIError` stops the loop and returns the remote
`gid_of_group` lookup without raising; any other `APIError` propagates.  The
same holds for `create_user` with UIDs and `uid_of_user`, and
`create_proxy_user` treats "already exists" as success and propagates
everything else. -/
theorem create_conflict_handling :
    (∀ (resp : String → Nat → CreateResp) gid_of_group name fuel s msgs,
      resp name s = CreateResp.apiErr msgs →
      gid_already_exists_error msgs s = true →
      create_group resp gid_of_group name (fuel + 1) s =
        (create_group resp gid_of_group name fuel (s + 1)).map
          (fun out => (out.1, out.2.1, s :: out.2.2))) ∧
    (∀ (resp : String → Nat → CreateResp) gid_of_group name k s fuel,
      (∀ i, i < k → ∃ msgs, resp name (s + i) = CreateResp.apiErr msgs ∧
        gid_already_exists_error msgs (s + i) = true) →
      resp name (s + k) = CreateResp.ok →
      create_group resp gid_of_group name (fuel + k + 1) s =
        some (Except.ok (s + k), s + k + 1, consec s (k + 1))) ∧
    (∀ (resp : String → Nat → CreateResp) gid_of_group name fuel s msgs,
      resp name s = CreateResp.apiErr msgs →
      gid_already_exists_error msgs s = false →
      group_already_exists_error msgs name = true →
      create_group resp gid_of_group name (fuel + 1) s =
        some (Except.ok (gid_of_group name), s + 1, [s])) ∧
    (∀ (resp : String → Nat → CreateResp) gid_of_group name fuel s msgs,
      resp name s = CreateResp.apiErr msgs →
      gid_already_exists_error msgs s = false →
      group_already_exists_error msgs name = false →
      create_group resp gid_of_group name (fuel + 1) s =
        some (Except.error msgs, s + 1, [s])) ∧
    (∀ (resp : String → Nat → CreateResp) uid_of_user name fuel s msgs,
      resp name s = CreateResp.apiErr msgs →
      uid_already_exists_error msgs s = true →
      create_user resp uid_of_user name (fuel + 1) s =
        (create_user resp uid_of_user name fuel (s + 1)).map
          (fun out => (out.1, out.2.1, s :: out.2.2))) ∧
    (∀ (resp : String → Nat → CreateResp) uid_of_user name fuel s msgs,
      resp name s = CreateResp.apiErr msgs →
      uid_already_exists_error msgs s = false →
      user_already_exists_error msgs name = true →
      create_user resp uid_of_user name (fuel + 1) s =
        some (Except.ok (uid_of_user name), s + 1, [s])) ∧
    (∀ (resp : String → Nat → CreateResp) uid_of_user name fuel s msgs,
      resp name s = CreateResp.apiErr msgs →
      uid_already_exists_error msgs s = false →
      user_already_exists_error msgs name = false →
      create_user resp uid_of_user name (fuel + 1) s =
        some (Except.error msgs, s + 1, [s])) ∧
    (∀ (resp : String → CreateResp) name msgs,
      resp name = CreateResp.apiErr msgs →
      proxy_user_already_exists_error msgs name = true →
      create_proxy_user resp name = Except.ok ()) ∧
    (∀ (resp : String → CreateResp) name msgs,
      resp name = CreateResp.apiErr msgs →
      proxy_user_already_exists_error msgs name = false →
      create_proxy_user resp name = Except.error msgs) := by
  refine ⟨?_, create_group_retries, ?_, ?_, ?_, ?_, ?_, ?_, ?_⟩
  · intro resp gid_of_group name fuel s msgs hresp hgid
    exact create_group_gid_conflict_step resp gid_of_group name fuel s msgs hresp hgid
  · intro resp gid_of_group name fuel s msgs hresp hgid hname
    simp only [create_group, nextId, hresp, hgid, hname]
    simp
  · intro resp gid_of_group name fuel s msgs hresp hgid hname
    simp only [create_group, nextId, hresp, hgid, hname]
    simp
  · intro resp uid_of_user name fuel s msgs hresp huid
    simp only [create_user, nextId, hresp, if_pos huid]
    cases hrec : create_user resp uid_of_user name fuel (s + 1) with
    | none => simp
    | some out => obtain ⟨r, s', uids⟩ := out; simp
  · intro resp uid_of_user name fuel s msgs hresp huid hname
    simp only [create_user, nextId, hresp, huid, hname]
    simp
  · intro resp uid_of_user name fuel s msgs hresp huid hname
    simp only [create_user, nextId, hresp, huid, hname]
    simp
  · intro resp name msgs hresp hpx
    simp [create_proxy_user, hresp, hpx]
  · intro resp name msgs hresp hpx
    simp [create_proxy_user, hresp, hpx]

/-- Witness for C3: a response oracle for which group "a" first hits a GID
conflict at 1025, then a name conflict at 1026: `create_group` returns the
remote GID 7 without raising; an unrelated error propagates for group "b";
the proxy-user conflict is success. -/
theorem create_conflict_handling_witness :
    create_group
        (fun name gid =>
          if name = "a" ∧ gid = 1025 then
            CreateResp.apiErr [gid_already_exists_error_format 1025]
          else if name = "a" then
            CreateResp.apiErr [group_already_exists_error_format "a"]
          else CreateResp.apiErr ["Something else went wrong"])
        (fun _ => 7) "a" (1 + 1) 1025 =
      (create_group
        (fun name gid =>
          if name = "a" ∧ gid = 1025 then
            CreateResp.apiErr [gid_already_exists_error_format 1025]
          else if name = "a" then
            CreateResp.apiErr [group_already_exists_error_format "a"]
          else CreateResp.apiErr ["Something else went wrong"])
        (fun _ => 7) "a" 1 1026).map (fun out => (out.1, out.2.1, 1025 :: out.2.2)) ∧
    create_group
        (fun name gid =>
          if name = "a" ∧ gid = 1025 then
            CreateResp.apiErr [gid_already_exists_error_format 1025]
          else if name = "a" then
            CreateResp.apiErr [group_already_exists_error_format "a"]
          else CreateResp.apiErr ["Something else went wrong"])
        (fun _ => 7) "a" (0 + 1) 1026 = some (Except.ok 7, 1027, [1026]) ∧
    create_group
        (fun name gid =>
          if name = "a" ∧ gid = 1025 then
            CreateResp.apiErr [gid_already_exists_error_format 1025]
          else if name = "a" then
            CreateResp.apiErr [group_already_exists_error_format "a"]
          else CreateResp.apiErr ["Something else went wrong"])
        (fun _ => 7) "b" (0 + 1) 1025 =
      some (Except.error ["Something else went wrong"], 1026, [1025]) ∧
    create_proxy_user
      (fun _ => CreateResp.apiErr [proxy_user_already_exists_error_format "oozie"])
      "oozie" = Except.ok () := by
  have hmain := create_conflict_handling
  refine ⟨?_, ?_, ?_, ?_⟩
  · exact hmain.1 _ _ "a" 1 1025 [gid_already_exists_error_format 1025]
      (by decide) (by decide)
  · exact hmain.2.2.1 _ _ "a" 0 1026 [group_already_exists_error_format "a"]
      (by decide) (by decide) (by decide)
  · exact hmain.2.2.2.1 _ _ "b" 0 1025 ["Something else went wrong"]
      (by decide) (by decide) (by decide)
  · exact hmain.2.2.2.2.2.2.2.1 _ "oozie"
      [proxy_user_already_exists_error_format "oozie"] (by decide) (by decide)

/-! ## `with_suffix_applied` (identities.py:317-339) -/

/-- `with_suffix_applied(identities, suffix, applicator)`: apply the
applicator (default: string concatenation with the suffix) to every group
name, user name, primary/secondary group name, proxy-user name and member
name, leaving member kinds unchanged. -/
def with_suffix_applied (ids : Identities) (suffix : String)
    (applicator : String → String → String := fun identity sfx => identity ++ sfx) :
    Identities where
  groups := ids.groups.map (fun group_name => applicator group_name suffix)
  users := ids.users.map (fun ent =>
    (applicator ent.1 suffix, applicator ent.2.1 suffix,
      ent.2.2.map (fun sgroup_name => applicator sgroup_name suffix)))
  proxy_users := ids.proxy_users.map (fun pm =>
    (applicator pm.1 suffix, pm.2.map (fun m => (applicator m.1 suffix, m.2))))

/-- **C10.** `with_suffix_applied` is structure-preserving: the output groups
are exactly the suffixed input groups, each user entry maps the suffixed
name to the suffixed primary group and suffixed secondary groups, each
proxy-user entry maps the suffixed name to suffixed members with unchanged
kinds; and with the default applicator and the empty suffix the output
equals the input. -/
theorem with_suffix_applied_structure :
    (∀ ids suffix app g, g ∈ (with_suffix_applied ids suffix app).groups ↔
      ∃ g₀ ∈ ids.groups, g = app g₀ suffix) ∧
    (∀ ids suffix app u pg sg,
      (u, pg, sg) ∈ (with_suffix_applied ids suffix app).users ↔
      ∃ u₀ pg₀ sg₀, (u₀, pg₀, sg₀) ∈ ids.users ∧ u = app u₀ suffix ∧
        pg = app pg₀ suffix ∧ sg = sg₀.map (fun g => app g suffix)) ∧
    (∀ ids suffix app p ms,
      (p, ms) ∈ (with_suffix_applied ids suffix app).proxy_users ↔
      ∃ p₀ ms₀, (p₀, ms₀) ∈ ids.proxy_users ∧ p = app p₀ suffix ∧
        ms = ms₀.map (fun m => (app m.1 suffix, m.2))) ∧
    (∀ ids, with_suffix_applied ids "" = ids) := by
  refine ⟨?_, ?_, ?_, ?_⟩
  · intro ids suffix app g
    simp only [with_suffix_applied, List.mem_map]
    constructor
    · rintro ⟨g₀, hg₀, rfl⟩; exact ⟨g₀, hg₀, rfl⟩
    · rintro ⟨g₀, hg₀, rfl⟩; exact ⟨g₀, hg₀, rfl⟩
  · intro ids suffix app u pg sg
    constructor
    · intro h
      obtain ⟨ent, hent, heq⟩ := List.mem_map.mp h
      obtain ⟨u₀, pg₀, sg₀⟩ := ent
      injection heq with h1 h2
      injection h2 with h3 h4
      exact ⟨u₀, pg₀, sg₀, hent, h1.symm, h3.symm, h4.symm⟩
    · rintro ⟨u₀, pg₀, sg₀, hmem, rfl, rfl, rfl⟩
      exact List.mem_map.mpr ⟨(u₀, pg₀, sg₀), hmem, rfl⟩
  · intro ids suffix app p ms
    constructor
    · intro h
      obtain ⟨pm, hpm, heq⟩ := List.mem_map.mp h
      obtain ⟨p₀, ms₀⟩ := pm
      injection heq with h1 h2
      exact ⟨p₀, ms₀, hpm, h1.symm, h2.symm⟩
    · rintro ⟨p₀, ms₀, hmem, rfl, rfl⟩
      exact List.mem_map.mpr ⟨(p₀, ms₀), hmem, rfl⟩
  · intro ids
    obtain ⟨gs, us, ps⟩ := ids
    simp only [with_suffix_applied, Identities.mk.injEq]
    refine ⟨by simp, ?_, ?_⟩
    · have : ∀ ent : String × String × List String,
          (ent.1 ++ "", ent.2.1 ++ "", ent.2.2.map (fun g => g ++ "")) = ent := by
        intro ent; obtain ⟨u₀, pg₀, sg₀⟩ := ent; simp
      calc us.map (fun ent =>
            (ent.1 ++ "", ent.2.1 ++ "", ent.2.2.map (fun g => g ++ "")))
          = us.map id := List.map_congr_left (fun ent _ => this ent)
        _ = us := List.map_id us
    · have : ∀ pm : String × List (String × String),
          (pm.1 ++ "", pm.2.map (fun m => (m.1 ++ "", m.2))) = pm := by
        intro pm; obtain ⟨p₀, ms₀⟩ := pm; simp
      calc ps.map (fun pm => (pm.1 ++ "", pm.2.map (fun m => (m.1 ++ "", m.2))))
          = ps.map id := List.map_congr_left (fun pm _ => this pm)
        _ = ps := List.map_id ps

/-! ## Directories (directories.py)

String primitives are embedded over `List Char` (Python `str` slices by
characters) so that everything evaluates. -/

/-- Python `s.rstrip('/')`. -/
def rstripSlash (s : String) : String :=
  String.mk ((s.data.reverse.dropWhile (fun c => c = '/')).reverse)

/-- Python `s.lstrip('/')`. -/
def lstripSlash (s : String) : String :=
  String.mk (s.data.dropWhile (fun c => c = '/'))

/-- Python `s.startswith(pre)`. -/
def strStartsWith (s pre : String) : Bool :=
  pre.data.isPrefixOf s.data

/-- Python `s.endswith(suf)`. -/
def strEndsWith (s suf : String) : Bool :=
  suf.data.reverse.isPrefixOf s.data.reverse

/-- Python `posixpath.join(a, b)` for two arguments. -/
def posixJoin (a b : String) : String :=
  if strStartsWith b "/" then b
  else if a = "" || strEndsWith a "/" then a ++ b
  else a ++ "/" ++ b

/-- `HDFSDirectory` (directories.py:89-102). -/
structure HDFSDirectory where
  path : String
  owner : String
  group : String
  mode : Nat
deriving DecidableEq, Repr

/-- A remote call issued by `directories.Creator.create_directories`. -/
inductive DirCall where
  | mkdir (path : String) (mode : Nat)
  | chmod (path : String) (mode : Nat)
  | chown (path : String) (owner group : String)
deriving DecidableEq, Repr

/-- An abort raised by a provisioning entry point:
`HDFSRootDirectoryError` (directories.py:33-34, 54-57), the
`assert hdfs_root.startswith(zone_root)` failure (directories.py:58), an
unrecovered `APIError`, or the `AttributeError` from calling `.lower()` on a
`None` zone. -/
inductive RunErr where
  | hdfsRootDirectoryError (root : String)
  | assertionError
  | apiError (msgs : List String)
  | attributeError
deriving DecidableEq, Repr

/-- `APIError.dir_path_already_exists_error()` (onefs.py:464-470). -/
def dir_path_already_exists_error (msgs : List String) : Bool :=
  msgs.any (fun m =>
    m == "Unable to create directory as requested -- container already exists")

/-- The HDFS-root-relative path of a catalog directory (directories.py:63):
`posixpath.join(zone_hdfs, directory.path.lstrip('/'))`. -/
def dirPath (zone_hdfs : String) (d : HDFSDirectory) : String :=
  posixJoin zone_hdfs (lstripSlash d.path)

/-- The chmod-then-chown tail of one loop iteration (directories.py:72-80):
both are issued unconditionally after the mkdir outcome is resolved; an
`APIError` from either aborts everything that remains. -/
def chmodChown (chmodR : String → Nat → CreateResp)
    (chownR : String → String → String → CreateResp) (path : String) (mode : Nat)
    (owner group : String) (restResult : List DirCall × Option RunErr) :
    List DirCall × Option RunErr :=
  match chmodR path mode with
  | CreateResp.apiErr msgs => ([DirCall.chmod path mode], some (RunErr.apiError msgs))
  | CreateResp.ok =>
    match chownR path owner group with
    | CreateResp.apiErr msgs =>
      ([DirCall.chmod path mode, DirCall.chown path owner group],
        some (RunErr.apiError msgs))
    | CreateResp.ok =>
      (DirCall.chmod path mode :: DirCall.chown path owner group :: restResult.1,
        restResult.2)

/-- The per-directory loop of `create_directories` (directories.py:62-80):
mkdir (tolerating "container already exists" with a warning), then chmod,
then chown, then the next directory; any other `APIError` aborts the rest. -/
def create_dirs_loop (mkdirR : String → Nat → CreateResp)
    (chmodR : String → Nat → CreateResp)
    (chownR : String → String → String → CreateResp) (zone_hdfs : String) :
    List HDFSDirectory → List DirCall × Option RunErr
  | [] => ([], none)
  | d :: rest =>
    let path := dirPath zone_hdfs d
    let tail := chmodChown chmodR chownR path d.mode d.owner d.group
      (create_dirs_loop mkdirR chmodR chownR zone_hdfs rest)
    match mkdirR path d.mode with
    | CreateResp.ok => (DirCall.mkdir path d.mode :: tail.1, tail.2)
    | CreateResp.apiErr msgs =>
      if dir_path_already_exists_error msgs then
        (DirCall.mkdir path d.mode :: tail.1, tail.2)
      else ([DirCall.mkdir path d.mode], some (RunErr.apiError msgs))

/-- `directories.Creator.create_directories` (directories.py:45-80).
`onefs_zone` is the constructor argument (default `None`; `.lower()` on
`None` raises `AttributeError` before anything else happens); `zone_path`
and `root_directory` are the values the client returns for
`zone_settings(zone)['path']` and `hdfs_settings(zone)['root_directory']`;
the result is the issued mkdir/chmod/chown trace plus the abort, if any. -/
def create_directories (onefs_zone : Option String) (zone_path root_directory : String)
    (mkdirR : String → Nat → CreateResp) (chmodR : String → Nat → CreateResp)
    (chownR : String → String → String → CreateResp)
    (directories : List HDFSDirectory) : List DirCall × Option RunErr :=
  match onefs_zone with
  | none => ([], some RunErr.attributeError)
  | some _zone =>
    let zone_root := rstripSlash zone_path
    let hdfs_root := rstripSlash root_directory
    if hdfs_root = "/ifs" then ([], some (RunErr.hdfsRootDirectoryError hdfs_root))
    else if strStartsWith hdfs_root zone_root then
      create_dirs_loop mkdirR chmodR chownR
        (String.mk (hdfs_root.data.drop zone_root.data.length)) directories
    else ([], some RunErr.assertionError)

/-- `directories.Creator.log_directories` (directories.py:82-86): delegate to
`create_directories` with never-raising no-op callables substituted for
mkdir/chmod/chown; the zone check, settings resolution and root-safety check
run unchanged. -/
def log_directories (onefs_zone : Option String)
    (zone_path root_directory : String) (directories : List HDFSDirectory) :
    List DirCall × Option RunErr :=
  create_directories onefs_zone zone_path root_directory
    (fun _ _ => CreateResp.ok) (fun _ _ => CreateResp.ok)
    (fun _ _ _ => CreateResp.ok) directories

/-- `identities.Creator.create_identities` (identities.py:158-182) including
the leading `self.onefs_zone.lower()` System-zone check: with a `None` zone
it raises `AttributeError` before the script is touched and before any call
of `iterate_identities` is issued; with a zone it proceeds and emits the
`create_identities_calls` trace. -/
def create_identities_run (onefs_zone : Option String) (ids : Identities) :
    List Call × Option RunErr :=
  match onefs_zone with
  | none => ([], some RunErr.attributeError)
  | some _zone => (create_identities_calls ids, none)

/-- `identities.Creator.log_identities` (identities.py:184-194): delegate to
`create_identities` with logging callables; the zone check and the iteration
order are identical, the actions are logged instead of executed. -/
def log_identities_run (onefs_zone : Option String) (ids : Identities) :
    List Call × Option RunErr :=
  create_identities_run onefs_zone ids

/-- **C7.** For every zone and every directories catalog,
`create_directories` raises `HDFSRootDirectoryError` whenever the resolved
HDFS root (`root_directory` with trailing separators stripped) equals the
filesystem's top-level root `/ifs`, and no mkdir/chmod/chown call precedes
the failure (the issued trace is empty). -/
theorem create_directories_root_safety (zone zone_path root_directory : String)
    (mkdirR : String → Nat → CreateResp) (chmodR : String → Nat → CreateResp)
    (chownR : String → String → String → CreateResp) (dirs : List HDFSDirectory)
    (h : rstripSlash root_directory = "/ifs") :
    create_directories (some zone) zone_path root_directory mkdirR chmodR chownR dirs =
      ([], some (RunErr.hdfsRootDirectoryError "/ifs")) := by
  simp [create_directories, h]

/-- Witness for C7: an HDFS root of `/ifs/` (stripping to `/ifs`) in zone
`zone1` fails fast with no calls issued, for a nonempty catalog. -/
theorem create_directories_root_safety_witness :
    rstripSlash "/ifs/" = "/ifs" ∧
    create_directories (some "zone1") "/ifs" "/ifs/"
        (fun _ _ => CreateResp.ok) (fun _ _ => CreateResp.ok)
        (fun _ _ _ => CreateResp.ok)
        [⟨"/tmp", "hdfs", "supergroup", 0o1777⟩] =
      ([], some (RunErr.hdfsRootDirectoryError "/ifs")) :=
  ⟨by decide,
    create_directories_root_safety "zone1" "/ifs" "/ifs/"
      (fun _ _ => CreateResp.ok) (fun _ _ => CreateResp.ok)
      (fun _ _ _ => CreateResp.ok)
      [⟨"/tmp", "hdfs", "supergroup", 0o1777⟩] (by decide)⟩

/-- The three calls `create_directories` issues for one catalog directory. -/
def perDirCalls (zone_hdfs : String) (d : HDFSDirectory) : List DirCall :=
  [DirCall.mkdir (dirPath zone_hdfs d) d.mode,
   DirCall.chmod (dirPath zone_hdfs d) d.mode,
   DirCall.chown (dirPath zone_hdfs d) d.owner d.group]

/-- **C8.** For every directory record, in catalog order, the loop issues
exactly mkdir (of the HDFS-root-relative path), then chmod with the declared
mode, then chown with the declared owner and group; chmod and chown are
issued even when mkdir failed with "container already exists" (treated as
success with a warning); any other API failure from any of the three calls
aborts all remaining directories; and `create_directories` resolves paths
against the HDFS-root offset within the zone.  The spec's `/tmp` scenario is
verified concretely at the end. -/
theorem create_directories_sequence :
    (∀ (mkdirR chmodR : String → Nat → CreateResp)
        (chownR : String → String → String → CreateResp)
        (zone_hdfs : String) (dirs : List HDFSDirectory),
      (∀ d ∈ dirs,
        (mkdirR (dirPath zone_hdfs d) d.mode = CreateResp.ok ∨
          ∃ msgs, mkdirR (dirPath zone_hdfs d) d.mode = CreateResp.apiErr msgs ∧
            dir_path_already_exists_error msgs = true) ∧
        chmodR (dirPath zone_hdfs d) d.mode = CreateResp.ok ∧
        chownR (dirPath zone_hdfs d) d.owner d.group = CreateResp.ok) →
      create_dirs_loop mkdirR chmodR chownR zone_hdfs dirs =
        (dirs.flatMap (perDirCalls zone_hdfs), none)) ∧
    (∀ (mkdirR chmodR : String → Nat → CreateResp)
        (chownR : String → String → String → CreateResp)
        (zone_hdfs : String) (d : HDFSDirectory) (rest : List HDFSDirectory) msgs,
      mkdirR (dirPath zone_hdfs d) d.mode = CreateResp.apiErr msgs →
      dir_path_already_exists_error msgs = false →
      create_dirs_loop mkdirR chmodR chownR zone_hdfs (d :: rest) =
        ([DirCall.mkdir (dirPath zone_hdfs d) d.mode], some (RunErr.apiError msgs))) ∧
    (∀ (mkdirR chmodR : String → Nat → CreateResp)
        (chownR : String → String → String → CreateResp)
        (zone_hdfs : String) (d : HDFSDirectory) (rest : List HDFSDirectory) msgs,
      (mkdirR (dirPath zone_hdfs d) d.mode = CreateResp.ok ∨
        ∃ m, mkdirR (dirPath zone_hdfs d) d.mode = CreateResp.apiErr m ∧
          dir_path_already_exists_error m = true) →
      chmodR (dirPath zone_hdfs d) d.mode = CreateResp.apiErr msgs →
      create_dirs_loop mkdirR chmodR chownR zone_hdfs (d :: rest) =
        ([DirCall.mkdir (dirPath zone_hdfs d) d.mode,
          DirCall.chmod (dirPath zone_hdfs d) d.mode], some (RunErr.apiError msgs))) ∧
    (∀ (mkdirR chmodR : String → Nat → CreateResp)
        (chownR : String → String → String → CreateResp)
        (zone_hdfs : String) (d : HDFSDirectory) (rest : List HDFSDirectory) msgs,
      (mkdirR (dirPath zone_hdfs d) d.mode = CreateResp.ok ∨
        ∃ m, mkdirR (dirPath zone_hdfs d) d.mode = CreateResp.apiErr m ∧
          dir_path_already_exists_error m = true) →
      chmodR (dirPath zone_hdfs d) d.mode = CreateResp.ok →
      chownR (dirPath zone_hdfs d) d.owner d.group = CreateResp.apiErr msgs →
      create_dirs_loop mkdirR chmodR chownR zone_hdfs (d :: rest) =
        ([DirCall.mkdir (dirPath zone_hdfs d) d.mode,
          DirCall.chmod (dirPath zone_hdfs d) d.mode,
          DirCall.chown (dirPath zone_hdfs d) d.owner d.group],
          some (RunErr.apiError msgs))) ∧
    (∀ (zone zone_path root_directory : String)
        (mkdirR chmodR : String → Nat → CreateResp)
        (chownR : String → String → String → CreateResp)
        (dirs : List HDFSDirectory),
      rstripSlash root_directory ≠ "/ifs" →
      strStartsWith (rstripSlash root_directory) (rstripSlash zone_path) = true →
      create_directories (some zone) zone_path root_directory mkdirR chmodR chownR
          dirs =
        create_dirs_loop mkdirR chmodR chownR
          (String.mk ((rstripSlash root_directory).data.drop
            (rstripSlash zone_path).data.length)) dirs) ∧
    create_directories (some "x") "/ifs/zones/x" "/ifs/zones/x/hdfs"
        (fun _ _ => CreateResp.apiErr
          ["Unable to create directory as requested -- container already exists"])
        (fun _ _ => CreateResp.ok) (fun _ _ _ => CreateResp.ok)
        [⟨"/tmp", "hdfs", "supergroup", 0o1777⟩] =
      ([DirCall.mkdir "/hdfs/tmp" 0o1777, DirCall.chmod "/hdfs/tmp" 0o1777,
        DirCall.chown "/hdfs/tmp" "hdfs" "supergroup"], none) := by
  refine ⟨?_, ?_, ?_, ?_, ?_, by decide⟩
  · intro mkdirR chmodR chownR zone_hdfs dirs hresp
    induction dirs with
    | nil => rfl
    | cons d rest ih =>
      obtain ⟨hmk, hch, hcw⟩ := hresp d (List.mem_cons_self _ _)
      have hrest := ih (fun d hd => hresp d (List.mem_cons_of_mem _ hd))
      rcases hmk with hmk | ⟨msgs, hmk, hex⟩
      · simp [create_dirs_loop, chmodChown, hmk, hch, hcw, hrest, perDirCalls]
      · simp [create_dirs_loop, chmodChown, hmk, hch, hcw, hex, hrest, perDirCalls]
  · intro mkdirR chmodR chownR zone_hdfs d rest msgs hmk hex
    simp [create_dirs_loop, hmk, hex]
  · intro mkdirR chmodR chownR zone_hdfs d rest msgs hmk hch
    rcases hmk with hmk | ⟨m, hmk, hex⟩
    · simp [create_dirs_loop, chmodChown, hmk, hch]
    · simp [create_dirs_loop, chmodChown, hmk, hch, hex]
  · intro mkdirR chmodR chownR zone_hdfs d rest msgs hmk hch hcw
    rcases hmk with hmk | ⟨m, hmk, hex⟩
    · simp [create_dirs_loop, chmodChown, hmk, hch, hcw]
    · simp [create_dirs_loop, chmodChown, hmk, hch, hcw, hex]
  · intro zone zone_path root_directory mkdirR chmodR chownR dirs hroot hstart
    simp [create_directories, hroot, hstart]

/-- Witness for C8: the spec's `/tmp` scenario through the success-path
conjunct — mkdir reports "already exists", chmod and chown still run, in
order. -/
theorem create_directories_sequence_witness :
    create_dirs_loop
        (fun _ _ => CreateResp.apiErr
          ["Unable to create directory as requested -- container already exists"])
        (fun _ _ => CreateResp.ok) (fun _ _ _ => CreateResp.ok) "/hdfs"
        [⟨"/tmp", "hdfs", "supergroup", 0o1777⟩] =
      (([⟨"/tmp", "hdfs", "supergroup", 0o1777⟩] :
          List HDFSDirectory).flatMap (perDirCalls "/hdfs"), none) :=
  create_directories_sequence.1
    (fun _ _ => CreateResp.apiErr
      ["Unable to create directory as requested -- container already exists"])
    (fun _ _ => CreateResp.ok) (fun _ _ _ => CreateResp.ok) "/hdfs"
    [⟨"/tmp", "hdfs", "supergroup", 0o1777⟩]
    (by intro d hd; simp at hd; subst hd; exact ⟨Or.inr ⟨_, rfl, by decide⟩, rfl, rfl⟩)

/-- **C9.** An `identities.Creator` or `directories.Creator` constructed with
the default `onefs_zone = None` fails every top-level entry point —
`create_identities`, `log_identities`, `create_directories`,
`log_directories` — with the `AttributeError` raised by `None.lower()` in
the System-zone check, before any remote call or script write is issued
(the traces are empty); the client-side default-zone fallback never applies
to these entry points. -/
theorem none_zone_attribute_error (ids : Identities)
    (zone_path root_directory : String)
    (mkdirR chmodR : String → Nat → CreateResp)
    (chownR : String → String → String → CreateResp) (dirs : List HDFSDirectory) :
    create_identities_run none ids = ([], some RunErr.attributeError) ∧
    log_identities_run none ids = ([], some RunErr.attributeError) ∧
    create_directories none zone_path root_directory mkdirR chmodR chownR dirs =
      ([], some RunErr.attributeError) ∧
    log_directories none zone_path root_directory dirs =
      ([], some RunErr.attributeError) :=
  ⟨rfl, rfl, rfl, rfl⟩

/-! ## The error classifier (`APIError.errors`, onefs.py:301-319)

The body of an SDK `ApiException` is embedded post-`json.loads`: `absent`
for a `None` body (`TypeError`), `notJson` for a string body that does not
decode (`ValueError`), `json v` for a decoded value.  Python iteration and
string-key indexing of the decoded value are embedded faithfully (iterating
a dict yields its keys, iterating a string yields its one-character
strings; indexing anything but a dict raises `TypeError`). -/

/-- A decoded JSON value. -/
inductive Json where
  | null
  | bool (b : Bool)
  | num (n : Int)
  | str (s : String)
  | arr (elems : List Json)
  | obj (fields : List (String × Json))

/-- The `body` attribute of the wrapped failure, as seen by `json.loads`. -/
inductive Body where
  | absent
  | notJson (raw : String)
  | json (v : Json)

/-- Python `d[key]` for a JSON dict (first matching key). -/
def getField : List (String × Json) → String → Option Json
  | [], _ => none
  | (k, v) :: rest, key => if k = key then some v else getField rest key

/-- Python `for x in v`: the elements iteration yields, or `none` for a
`TypeError` (non-iterable value). -/
def pyElems : Json → Option (List Json)
  | Json.arr es => some es
  | Json.str s => some (s.data.map (fun c => Json.str (String.mk [c])))
  | Json.obj fs => some (fs.map (fun kv => Json.str kv.1))
  | _ => none

/-- Python `error['message']`: `none` for a `TypeError` (not a dict) or a
`KeyError` (key missing). -/
def getMessage (e : Json) : Option Json :=
  match e with
  | Json.obj fs => getField fs "message"
  | _ => none

/-- The classification outcome of `APIError.errors()`: the
`UndecodableAPIError` / `MalformedAPIError` raises, or the returned list of
error objects (a Domain error carrying each entry's message). -/
inductive Classified where
  | undecodable
  | malformed
  | domain (errors : List Json)

/-- `APIError.errors()` (onefs.py:301-319): `json.loads` failures
(`TypeError` for no body, `ValueError` for non-JSON) become
`UndecodableAPIError`; a missing/non-indexable `errors` entry, a
non-iterable `errors` value, or any element without a `'message'` key
(`KeyError`/`TypeError`) becomes `MalformedAPIError`; otherwise the error
objects are returned. -/
def classify : Body → Classified
  | Body.absent => Classified.undecodable
  | Body.notJson _ => Classified.undecodable
  | Body.json v =>
    match v with
    | Json.obj fs =>
      match getField fs "errors" with
      | none => Classified.malformed
      | some errsVal =>
        match pyElems errsVal with
        | none => Classified.malformed
        | some es =>
          if es.all (fun e => (getMessage e).isSome) then Classified.domain es
          else Classified.malformed
    | _ => Classified.malformed

/-- A raw failure from the transport: the SDK exception's `body` and
`reason` attributes (onefs.py:560-566). -/
structure RemoteError where
  body : Body
  reason : Option String

/-- Classification of a `RemoteError` is a function of its body alone
(the reason plays no role in `APIError.errors()`). -/
def classifyRemote (e : RemoteError) : Classified :=
  classify e.body

/-- **C5.** Classification is a pure deterministic function of body and
reason: identical body and reason always classify identically; an absent or
non-JSON body yields Undecodable; JSON without a usable iterable `errors`
collection of objects carrying `message` keys yields Malformed (this also
covers a non-object body and each element lacking `message`); the body
`obj [errors ↦ [obj [message ↦ X]]]` yields a Domain error carrying message
X; and the classifier is total — every input maps to Undecodable, Malformed
or Domain (parse failures are converted, never propagated raw). -/
theorem classification_deterministic :
    (∀ e₁ e₂ : RemoteError, e₁.body = e₂.body → e₁.reason = e₂.reason →
      classifyRemote e₁ = classifyRemote e₂) ∧
    classify Body.absent = Classified.undecodable ∧
    (∀ raw, classify (Body.notJson raw) = Classified.undecodable) ∧
    (∀ X, classify (Body.json (Json.obj
        [("errors", Json.arr [Json.obj [("message", Json.str X)]])])) =
      Classified.domain [Json.obj [("message", Json.str X)]] ∧
      getMessage (Json.obj [("message", Json.str X)]) = some (Json.str X)) ∧
    classify (Body.json (Json.obj [("errors", Json.arr [Json.obj []])])) =
      Classified.malformed ∧
    (∀ fs, getField fs "errors" = none →
      classify (Body.json (Json.obj fs)) = Classified.malformed) ∧
    (∀ fs errsVal, getField fs "errors" = some errsVal → pyElems errsVal = none →
      classify (Body.json (Json.obj fs)) = Classified.malformed) ∧
    (∀ fs errsVal es, getField fs "errors" = some errsVal →
      pyElems errsVal = some es →
      (es.all (fun e => (getMessage e).isSome) = true →
        classify (Body.json (Json.obj fs)) = Classified.domain es) ∧
      (es.all (fun e => (getMessage e).isSome) = false →
        classify (Body.json (Json.obj fs)) = Classified.malformed)) ∧
    (∀ b, classify b = Classified.undecodable ∨ classify b = Classified.malformed ∨
      ∃ es, classify b = Classified.domain es) := by
  refine ⟨?_, rfl, fun raw => rfl, ?_, rfl, ?_, ?_, ?_, ?_⟩
  · intro e₁ e₂ hb _hr
    simp [classifyRemote, hb]
  · intro X
    constructor
    · simp [classify, getField, pyElems, getMessage]
    · simp [getMessage, getField]
  · intro fs h
    simp [classify, h]
  · intro fs errsVal h1 h2
    simp [classify, h1, h2]
  · intro fs errsVal es h1 h2
    constructor
    · intro hall; simp [classify, h1, h2, hall]
    · intro hall; simp [classify, h1, h2, hall]
  · intro b
    cases b with
    | absent => exact Or.inl rfl
    | notJson raw => exact Or.inl rfl
    | json v =>
      cases v with
      | obj fs =>
        cases h1 : getField fs "errors" with
        | none => exact Or.inr (Or.inl (by simp [classify, h1]))
        | some errsVal =>
          cases h2 : pyElems errsVal with
          | none => exact Or.inr (Or.inl (by simp [classify, h1, h2]))
          | some es =>
            by_cases hall : es.all (fun e => (getMessage e).isSome) = true
            · exact Or.inr (Or.inr ⟨es, by simp [classify, h1, h2, hall]⟩)
            · exact Or.inr (Or.inl (by
                simp only [classify, h1, h2]
                rw [if_neg hall]))
      | null => exact Or.inr (Or.inl rfl)
      | bool b => exact Or.inr (Or.inl rfl)
      | num n => exact Or.inr (Or.inl rfl)
      | str s => exact Or.inr (Or.inl rfl)
      | arr es => exact Or.inr (Or.inl rfl)

/-- Witness for C5 exercising the hypothesis-bearing conjuncts at concrete
bodies. -/
theorem classification_deterministic_witness :
    classifyRemote ⟨Body.json (Json.obj [("errors", Json.num 3)]), some "r1"⟩ =
      classifyRemote ⟨Body.json (Json.obj [("errors", Json.num 3)]), some "r1"⟩ ∧
    classify (Body.json (Json.obj [("other", Json.null)])) = Classified.malformed ∧
    classify (Body.json (Json.obj [("errors", Json.num 3)])) = Classified.malformed :=
  ⟨classification_deterministic.1
      ⟨Body.json (Json.obj [("errors", Json.num 3)]), some "r1"⟩
      ⟨Body.json (Json.obj [("errors", Json.num 3)]), some "r1"⟩ rfl rfl,
    classification_deterministic.2.2.2.2.2.1 [("other", Json.null)] rfl,
    classification_deterministic.2.2.2.2.2.2.1 [("errors", Json.num 3)] (Json.num 3)
      rfl rfl⟩

/-! ## The retrying access wrapper (`accesses_onefs`, onefs.py:549-574)

The wrapped operation is embedded as the list of outcomes of its successive
invocations; the wrapper's exit is the returned value or the raised
classified error, together with the total `time.sleep` units spent.  `none`
means the scripted outcomes were exhausted while still retrying. -/

/-- `APIError.try_again_error_format` (onefs.py:283). -/
def try_again_error_format : String :=
  "OneFS API is temporarily unavailable. Try your request again."

/-- Whether a JSON value is a given string (Python `==` against a `str`). -/
def jsonEqStr (j : Json) (s : String) : Bool :=
  match j with
  | Json.str t => t == s
  | _ => false

/-- `APIError.try_again_error()` (onefs.py:396-403) applied to the validated
error objects: some entry's `message` equals the try-again template. -/
def try_again_error (es : List Json) : Bool :=
  es.any (fun e =>
    match getMessage e with
    | some m => jsonEqStr m try_again_error_format
    | none => false)

/-- Python `pat in (reason or '')`. -/
def containsSub (pat : List Char) : List Char → Bool
  | [] => pat.isEmpty
  | c :: rest => pat.isPrefixOf (c :: rest) || containsSub pat rest

/-- `'CERTIFICATE_VERIFY_FAILED' in (exc.reason or '')` (onefs.py:564-566). -/
def reasonHasCertMark (reason : Option String) : Bool :=
  containsSub "CERTIFICATE_VERIFY_FAILED".data (reason.getD "").data

/-- Python `not exc.body` (onefs.py:563): `None` or the empty string. -/
def bodyFalsy : Body → Bool
  | Body.absent => true
  | Body.notJson raw => raw == ""
  | Body.json _ => false

/-- The outcome of one invocation of the wrapped SDK call: a value, a
`urllib3` `MaxRetryError` (whose reason may be an `SSLError`), or an SDK
`ApiException` with its `body` and `reason`. -/
inductive Outcome (α : Type) where
  | success (v : α)
  | maxRetryError (sslReason : Bool)
  | apiException (body : Body) (reason : Option String)

/-- The wrapper's exit: the value, or the raised error —
`OneFSConnectionError`, `OneFSCertificateError`, or a classified API error
wrapping the original failure's body and reason as its cause. -/
inductive WrapResult (α : Type) where
  | ok (v : α)
  | connectionError
  | certificateError
  | raisedAPIError (c : Classified) (causeBody : Body) (causeReason : Option String)

/-- `accesses_onefs` (onefs.py:549-574): loop forever; a `MaxRetryError`
raises Connection (or Certificate when its reason is an `SSLError`); an
`ApiException` with a falsy body whose reason mentions
CERTIFICATE_VERIFY_FAILED raises Certificate; otherwise the body is
classified — `errors()` raising Undecodable/Malformed propagates, a
non-try-again Domain error raises the wrapped `APIError`, and a try-again
Domain error sleeps 2 units and retries. -/
def accesses_onefs {α : Type} : List (Outcome α) → Option (WrapResult α × Nat)
  | [] => none
  | o :: rest =>
    match o with
    | Outcome.success v => some (WrapResult.ok v, 0)
    | Outcome.maxRetryError ssl =>
      some (if ssl then WrapResult.certificateError else WrapResult.connectionError, 0)
    | Outcome.apiException body reason =>
      if bodyFalsy body && reasonHasCertMark reason then
        some (WrapResult.certificateError, 0)
      else
        match classify body with
        | Classified.undecodable =>
          some (WrapResult.raisedAPIError Classified.undecodable body reason, 0)
        | Classified.malformed =>
          some (WrapResult.raisedAPIError Classified.malformed body reason, 0)
        | Classified.domain es =>
          if try_again_error es then
            match accesses_onefs rest with
            | none => none
            | some (r, sleeps) => some (r, sleeps + 2)
          else some (WrapResult.raisedAPIError (Classified.domain es) body reason, 0)

/-- **Counterexample to C4 as stated.**  For a structured API failure with no
body and a reason mentioning CERTIFICATE_VERIFY_FAILED, the classification
is Undecodable, so the claim's "every other classified API failure (Domain,
Malformed, Undecodable) is raised immediately wrapping the original failure"
demands the Undecodable error; the wrapper instead raises
`OneFSCertificateError`. -/
theorem accesses_onefs_cert_counterexample :
    classify Body.absent = Classified.undecodable ∧
    accesses_onefs (α := Unit)
        [Outcome.apiException Body.absent (some "CERTIFICATE_VERIFY_FAILED")] =
      some (WrapResult.certificateError, 0) ∧
    some ((WrapResult.certificateError : WrapResult Unit), 0) ≠
      some ((WrapResult.raisedAPIError Classified.undecodable Body.absent
        (some "CERTIFICATE_VERIFY_FAILED") : WrapResult Unit), 0) := by
  refine ⟨rfl, ?_, ?_⟩
  · rw [show accesses_onefs (α := Unit)
        [Outcome.apiException Body.absent (some "CERTIFICATE_VERIFY_FAILED")] =
        if bodyFalsy Body.absent &&
            reasonHasCertMark (some "CERTIFICATE_VERIFY_FAILED") then
          some (WrapResult.certificateError, 0)
        else
          match classify Body.absent with
          | Classified.undecodable =>
            some (WrapResult.raisedAPIError Classified.undecodable Body.absent
              (some "CERTIFICATE_VERIFY_FAILED"), 0)
          | Classified.malformed =>
            some (WrapResult.raisedAPIError Classified.malformed Body.absent
              (some "CERTIFICATE_VERIFY_FAILED"), 0)
          | Classified.domain es =>
            if try_again_error es then
              match accesses_onefs (α := Unit) [] with
              | none => none
              | some (r, sleeps) => some (r, sleeps + 2)
            else some (WrapResult.raisedAPIError (Classified.domain es) Body.absent
              (some "CERTIFICATE_VERIFY_FAILED"), 0) from rfl]
    rw [if_pos (by decide)]
  · intro h
    injection h with h'
    injection h' with h1 h2
    exact WrapResult.noConfusion h1

/-- **C4 (amended).**  For every wrapped remote operation: a transport-level
connection failure raises Connection, or Certificate when it wraps an SSL
failure, with no retry; a structured API failure whose classified messages
contain exactly the try-again template sleeps 2 units and retries
indefinitely; every other classified API failure (Domain, Malformed,
Undecodable) is raised immediately wrapping the original failure — except
that a structured API failure with a falsy (absent/empty) body whose reason
mentions CERTIFICATE_VERIFY_FAILED is raised as a Certificate error before
classification; and every exit of the wrapper is either the operation's
result or one of these raised classified errors. -/
theorem accesses_onefs_behavior {α : Type} :
    (∀ (v : α) rest, accesses_onefs (Outcome.success v :: rest) =
      some (WrapResult.ok v, 0)) ∧
    (∀ rest, accesses_onefs (α := α) (Outcome.maxRetryError true :: rest) =
      some (WrapResult.certificateError, 0)) ∧
    (∀ rest, accesses_onefs (α := α) (Outcome.maxRetryError false :: rest) =
      some (WrapResult.connectionError, 0)) ∧
    (∀ body reason (rest : List (Outcome α)),
      (bodyFalsy body && reasonHasCertMark reason) = true →
      accesses_onefs (Outcome.apiException body reason :: rest) =
        some (WrapResult.certificateError, 0)) ∧
    (∀ body reason (rest : List (Outcome α)) es,
      classify body = Classified.domain es → try_again_error es = true →
      accesses_onefs (Outcome.apiException body reason :: rest) =
        (accesses_onefs rest).map (fun p => (p.1, p.2 + 2))) ∧
    (∀ body reason (rest : List (Outcome α)) es,
      classify body = Classified.domain es → try_again_error es = false →
      accesses_onefs (Outcome.apiException body reason :: rest) =
        some (WrapResult.raisedAPIError (Classified.domain es) body reason, 0)) ∧
    (∀ body reason (rest : List (Outcome α)),
      classify body = Classified.malformed →
      accesses_onefs (Outcome.apiException body reason :: rest) =
        some (WrapResult.raisedAPIError Classified.malformed body reason, 0)) ∧
    (∀ body reason (rest : List (Outcome α)),
      classify body = Classified.undecodable →
      (bodyFalsy body && reasonHasCertMark reason) = false →
      accesses_onefs (Outcome.apiException body reason :: rest) =
        some (WrapResult.raisedAPIError Classified.undecodable body reason, 0)) ∧
    (∀ (outs : List (Outcome α)) res sleeps,
      accesses_onefs outs = some (res, sleeps) →
      (∃ v, res = WrapResult.ok v) ∨ res = WrapResult.connectionError ∨
        res = WrapResult.certificateError ∨
        ∃ c b r, res = WrapResult.raisedAPIError c b r) := by
  have hfalsy : ∀ body es, classify body = Classified.domain es →
      bodyFalsy body = false := by
    intro body es h
    cases body with
    | absent => exact absurd h (by simp [classify])
    | notJson raw => exact absurd h (by simp [classify])
    | json v => rfl
  have hmalf : ∀ body, classify body = Classified.malformed →
      bodyFalsy body = false := by
    intro body h
    cases body with
    | absent => exact absurd h (by simp [classify])
    | notJson raw => exact absurd h (by simp [classify])
    | json v => rfl
  refine ⟨fun v rest => rfl, fun rest => rfl, fun rest => rfl, ?_, ?_, ?_, ?_, ?_, ?_⟩
  · intro body reason rest hcert
    simp [accesses_onefs, hcert]
  · intro body reason rest es hcl htry
    have hb : bodyFalsy body = false := hfalsy body es hcl
    cases hrec : accesses_onefs rest with
    | none => simp [accesses_onefs, hb, hcl, htry, hrec]
    | some p => obtain ⟨r, sleeps⟩ := p; simp [accesses_onefs, hb, hcl, htry, hrec]
  · intro body reason rest es hcl htry
    have hb : bodyFalsy body = false := hfalsy body es hcl
    simp [accesses_onefs, hb, hcl, htry]
  · intro body reason rest hcl
    have hb : bodyFalsy body = false := hmalf body hcl
    simp [accesses_onefs, hb, hcl]
  · intro body reason rest hcl hcert
    simp [accesses_onefs, hcert, hcl]
  · intro outs
    induction outs with
    | nil => intro res sleeps h; exact absurd h (by simp [accesses_onefs])
    | cons o rest ih =>
      intro res sleeps h
      cases o with
      | success v =>
        simp only [accesses_onefs, Option.some.injEq, Prod.mk.injEq] at h
        exact Or.inl ⟨v, h.1.symm⟩
      | maxRetryError ssl =>
        simp only [accesses_onefs, Option.some.injEq, Prod.mk.injEq] at h
        cases ssl with
        | true => exact Or.inr (Or.inr (Or.inl (by simpa using h.1.symm)))
        | false => exact Or.inr (Or.inl (by simpa using h.1.symm))
      | apiException body reason =>
        simp only [accesses_onefs] at h
        by_cases hcert : (bodyFalsy body && reasonHasCertMark reason) = true
        · rw [if_pos hcert] at h
          simp only [Option.some.injEq, Prod.mk.injEq] at h
          exact Or.inr (Or.inr (Or.inl h.1.symm))
        · rw [if_neg hcert] at h
          cases hcl : classify body with
          | undecodable =>
            simp only [hcl, Option.some.injEq, Prod.mk.injEq] at h
            exact Or.inr (Or.inr (Or.inr ⟨_, _, _, h.1.symm⟩))
          | malformed =>
            simp only [hcl, Option.some.injEq, Prod.mk.injEq] at h
            exact Or.inr (Or.inr (Or.inr ⟨_, _, _, h.1.symm⟩))
          | domain es =>
            simp only [hcl] at h
            by_cases htry : try_again_error es = true
            · rw [if_pos htry] at h
              cases hrec : accesses_onefs rest with
              | none => rw [hrec] at h; exact absurd h (by simp)
              | some p =>
                obtain ⟨r, sl⟩ := p
                rw [hrec] at h
                simp only [Option.some.injEq, Prod.mk.injEq] at h
                obtain ⟨h1, -⟩ := h
                subst h1
                exact ih r sl hrec
            · rw [if_neg htry] at h
              simp only [Option.some.injEq, Prod.mk.injEq] at h
              exact Or.inr (Or.inr (Or.inr ⟨_, _, _, h.1.symm⟩))

/-- Witness for C4 (amended): a try-again failure followed by success exits
with the value after one 2-unit sleep; a domain failure raises immediately;
the SSL transport failure raises Certificate. -/
theorem accesses_onefs_behavior_witness :
    accesses_onefs
        (Outcome.apiException
          (Body.json (Json.obj [("errors",
            Json.arr [Json.obj [("message", Json.str try_again_error_format)]])]))
          none :: [Outcome.success (37 : Nat)]) =
      (accesses_onefs [Outcome.success (37 : Nat)]).map (fun p => (p.1, p.2 + 2)) ∧
    accesses_onefs [Outcome.success (37 : Nat)] = some (WrapResult.ok 37, 0) ∧
    accesses_onefs (α := Nat) [Outcome.maxRetryError true] =
      some (WrapResult.certificateError, 0) :=
  ⟨accesses_onefs_behavior.2.2.2.2.1
      (Body.json (Json.obj [("errors",
        Json.arr [Json.obj [("message", Json.str try_again_error_format)]])]))
      none [Outcome.success (37 : Nat)]
      [Json.obj [("message", Json.str try_again_error_format)]]
      (by simp [classify, getField, pyElems, getMessage])
      (by simp [try_again_error, getMessage, getField, jsonEqStr]),
    accesses_onefs_behavior.1 37 [],
    accesses_onefs_behavior.2.1 []⟩

/-! ## The version-adaptive SDK selector (`sdk_for_revision`, onefs.py:513-546) -/

/-- `ONEFS_RELEASES` (onefs.py:61-75). -/
def ONEFS_RELEASES : List (String × Nat) :=
  [("7.2.0.0", 0x70200500000000A), ("8.0.0.0", 0x800005000000025),
   ("8.0.0.4", 0x800005000400035), ("8.0.1.0", 0x800015000000007),
   ("8.0.1.1", 0x800015000100070), ("8.1.0.0", 0x80100500000000B),
   ("8.1.1.0", 0x8010150000000D4), ("8.1.2.0", 0x801025000000010),
   ("8.1.3.0", 0x80103500000000D), ("8.2.0.0", 0x80200500000000B),
   ("8.2.1.0", 0x802015000000004), ("8.2.2.0", 0x802025000000007),
   ("8.2.3.0", 0x802035000000000)]

/-- `ONEFS_RELEASES[version]`. -/
def releaseOf (v : String) : Nat :=
  ((ONEFS_RELEASES.find? (fun p => p.1 == v)).map Prod.snd).getD 0

/-- The importable SDK binding modules. -/
inductive SDK where
  | isi_sdk_7_2
  | isi_sdk_8_0
  | isi_sdk_8_0_1
  | isi_sdk_8_1_0
  | isi_sdk_8_1_1
  | isi_sdk_8_2_0
  | isi_sdk_8_2_1
  | isi_sdk_8_2_2
deriving DecidableEq, Repr

/-- `UnsupportedVersion` (onefs.py:499-503, raised at onefs.py:544). -/
inductive VersionErr where
  | unsupportedVersion (revision : Nat)
deriving DecidableEq, Repr

/-- `sdk_for_revision(revision, strict=False)` (onefs.py:513-546). -/
def sdk_for_revision (revision : Nat) (strict : Bool := false) :
    Except VersionErr SDK :=
  if releaseOf "7.2.0.0" ≤ revision ∧ revision < releaseOf "8.0.0.0" then
    Except.ok SDK.isi_sdk_7_2
  else if releaseOf "8.0.0.0" ≤ revision ∧ revision < releaseOf "8.0.1.0" then
    Except.ok SDK.isi_sdk_8_0
  else if releaseOf "8.0.1.0" ≤ revision ∧ revision < releaseOf "8.1.0.0" then
    Except.ok SDK.isi_sdk_8_0_1
  else if releaseOf "8.1.0.0" ≤ revision ∧ revision < releaseOf "8.1.1.0" then
    Except.ok SDK.isi_sdk_8_1_0
  else if releaseOf "8.1.1.0" ≤ revision ∧ revision < releaseOf "8.2.0.0" then
    Except.ok SDK.isi_sdk_8_1_1
  else if releaseOf "8.2.0.0" ≤ revision ∧ revision < releaseOf "8.2.1.0" then
    Except.ok SDK.isi_sdk_8_2_0
  else if releaseOf "8.2.1.0" ≤ revision ∧ revision < releaseOf "8.2.2.0" then
    Except.ok SDK.isi_sdk_8_2_1
  else if releaseOf "8.2.2.0" ≤ revision ∧ revision < releaseOf "8.2.3.0" then
    Except.ok SDK.isi_sdk_8_2_2
  else if strict then Except.error (VersionErr.unsupportedVersion revision)
  else Except.ok SDK.isi_sdk_8_2_2

/-- The table of (revision floor, binding) pairs realized by the if-chain of
`sdk_for_revision`, in ascending floor order; the associated ceiling of each
floor is the next floor, and the overall ceiling is release 8.2.3.0. -/
def sdkFloors : List (Nat × SDK) :=
  [(releaseOf "7.2.0.0", SDK.isi_sdk_7_2), (releaseOf "8.0.0.0", SDK.isi_sdk_8_0),
   (releaseOf "8.0.1.0", SDK.isi_sdk_8_0_1),
   (releaseOf "8.1.0.0", SDK.isi_sdk_8_1_0),
   (releaseOf "8.1.1.0", SDK.isi_sdk_8_1_1),
   (releaseOf "8.2.0.0", SDK.isi_sdk_8_2_0),
   (releaseOf "8.2.1.0", SDK.isi_sdk_8_2_1),
   (releaseOf "8.2.2.0", SDK.isi_sdk_8_2_2)]

/-- The spec's selection rule, stated from its words: the binding whose
floor is the greatest table floor ≤ `revision` (a left fold over the
ascending table keeps the last — greatest — satisfying floor). -/
def greatestFloorBinding (revision : Nat) : Option SDK :=
  sdkFloors.foldl (fun acc p => if p.1 ≤ revision then some p.2 else acc) none

/-- **C6.** Binding selection is a deterministic function of the revision
over the fixed ascending floor table: for every revision within the known
range the selected binding is the one for the greatest floor ≤ revision;
below the lowest floor or at/above the highest ceiling, strict mode raises
UnsupportedVersion and non-strict mode falls back to the newest binding. -/
theorem sdk_for_revision_selection :
    List.Chain' (· < ·) (sdkFloors.map Prod.fst) ∧
    (∀ revision strict, releaseOf "7.2.0.0" ≤ revision →
      revision < releaseOf "8.2.3.0" →
      ∃ b, greatestFloorBinding revision = some b ∧
        sdk_for_revision revision strict = Except.ok b) ∧
    (∀ revision,
      (revision < releaseOf "7.2.0.0" ∨ releaseOf "8.2.3.0" ≤ revision) →
      sdk_for_revision revision true =
        Except.error (VersionErr.unsupportedVersion revision) ∧
      sdk_for_revision revision false = Except.ok SDK.isi_sdk_8_2_2) ∧
    (sdkFloors.map Prod.snd).getLast? = some SDK.isi_sdk_8_2_2 := by
  have o1 : releaseOf "7.2.0.0" < releaseOf "8.0.0.0" := by decide
  have o2 : releaseOf "8.0.0.0" < releaseOf "8.0.1.0" := by decide
  have o3 : releaseOf "8.0.1.0" < releaseOf "8.1.0.0" := by decide
  have o4 : releaseOf "8.1.0.0" < releaseOf "8.1.1.0" := by decide
  have o5 : releaseOf "8.1.1.0" < releaseOf "8.2.0.0" := by decide
  have o6 : releaseOf "8.2.0.0" < releaseOf "8.2.1.0" := by decide
  have o7 : releaseOf "8.2.1.0" < releaseOf "8.2.2.0" := by decide
  have o8 : releaseOf "8.2.2.0" < releaseOf "8.2.3.0" := by decide
  refine ⟨?_, ?_, ?_, by decide⟩
  · simp only [sdkFloors, List.map, List.chain'_cons, List.chain'_singleton]
    exact ⟨o1, o2, o3, o4, o5, o6, o7, trivial⟩
  · intro revision strict h0 h9
    by_cases h1 : revision < releaseOf "8.0.0.0"
    · refine ⟨SDK.isi_sdk_7_2, ?_, ?_⟩
      · simp only [greatestFloorBinding, sdkFloors, List.foldl]
        rw [if_neg (show ¬releaseOf "8.2.2.0" ≤ revision from by omega),
          if_neg (show ¬releaseOf "8.2.1.0" ≤ revision from by omega),
          if_neg (show ¬releaseOf "8.2.0.0" ≤ revision from by omega),
          if_neg (show ¬releaseOf "8.1.1.0" ≤ revision from by omega),
          if_neg (show ¬releaseOf "8.1.0.0" ≤ revision from by omega),
          if_neg (show ¬releaseOf "8.0.1.0" ≤ revision from by omega),
          if_neg (show ¬releaseOf "8.0.0.0" ≤ revision from by omega),
          if_pos h0]
      · simp only [sdk_for_revision]
        rw [if_pos ⟨h0, h1⟩]
    · by_cases h2 : revision < releaseOf "8.0.1.0"
      · refine ⟨SDK.isi_sdk_8_0, ?_, ?_⟩
        · simp only [greatestFloorBinding, sdkFloors, List.foldl]
          rw [if_neg (show ¬releaseOf "8.2.2.0" ≤ revision from by omega),
            if_neg (show ¬releaseOf "8.2.1.0" ≤ revision from by omega),
            if_neg (show ¬releaseOf "8.2.0.0" ≤ revision from by omega),
            if_neg (show ¬releaseOf "8.1.1.0" ≤ revision from by omega),
            if_neg (show ¬releaseOf "8.1.0.0" ≤ revision from by omega),
            if_neg (show ¬releaseOf "8.0.1.0" ≤ revision from by omega),
            if_pos (show releaseOf "8.0.0.0" ≤ revision from by omega)]
        · simp only [sdk_for_revision]
          rw [if_neg (show ¬(releaseOf "7.2.0.0" ≤ revision ∧
              revision < releaseOf "8.0.0.0") from by omega),
            if_pos ⟨show releaseOf "8.0.0.0" ≤ revision from by omega, h2⟩]
      · by_cases h3 : revision < releaseOf "8.1.0.0"
        · refine ⟨SDK.isi_sdk_8_0_1, ?_, ?_⟩
          · simp only [greatestFloorBinding, sdkFloors, List.foldl]
            rw [if_neg (show ¬releaseOf "8.2.2.0" ≤ revision from by omega),
              if_neg (show ¬releaseOf "8.2.1.0" ≤ revision from by omega),
              if_neg (show ¬releaseOf "8.2.0.0" ≤ revision from by omega),
              if_neg (show ¬releaseOf "8.1.1.0" ≤ revision from by omega),
              if_neg (show ¬releaseOf "8.1.0.0" ≤ revision from by omega),
              if_pos (show releaseOf "8.0.1.0" ≤ revision from by omega)]
          · simp only [sdk_for_revision]
            rw [if_neg (show ¬(releaseOf "7.2.0.0" ≤ revision ∧
                revision < releaseOf "8.0.0.0") from by omega),
              if_neg (show ¬(releaseOf "8.0.0.0" ≤ revision ∧
                revision < releaseOf "8.0.1.0") from by omega),
              if_pos ⟨show releaseOf "8.0.1.0" ≤ revision from by omega, h3⟩]
        · by_cases h4 : revision < releaseOf "8.1.1.0"
          · refine ⟨SDK.isi_sdk_8_1_0, ?_, ?_⟩
            · simp only [greatestFloorBinding, sdkFloors, List.foldl]
              rw [if_neg (show ¬releaseOf "8.2.2.0" ≤ revision from by omega),
                if_neg (show ¬releaseOf "8.2.1.0" ≤ revision from by omega),
                if_neg (show ¬releaseOf "8.2.0.0" ≤ revision from by omega),
                if_neg (show ¬releaseOf "8.1.1.0" ≤ revision from by omega),
                if_pos (show releaseOf "8.1.0.0" ≤ revision from by omega)]
            · simp only [sdk_for_revision]
              rw [if_neg (show ¬(releaseOf "7.2.0.0" ≤ revision ∧
                  revision < releaseOf "8.0.0.0") from by omega),
                if_neg (show ¬(releaseOf "8.0.0.0" ≤ revision ∧
                  revision < releaseOf "8.0.1.0") from by omega),
                if_neg (show ¬(releaseOf "8.0.1.0" ≤ revision ∧
                  revision < releaseOf "8.1.0.0") from by omega),
                if_pos ⟨show releaseOf "8.1.0.0" ≤ revision from by omega, h4⟩]
          · by_cases h5 : revision < releaseOf "8.2.0.0"
            · refine ⟨SDK.isi_sdk_8_1_1, ?_, ?_⟩
              · simp only [greatestFloorBinding, sdkFloors, List.foldl]
                rw [if_neg (show ¬releaseOf "8.2.2.0" ≤ revision from by omega),
                  if_neg (show ¬releaseOf "8.2.1.0" ≤ revision from by omega),
                  if_neg (show ¬releaseOf "8.2.0.0" ≤ revision from by omega),
                  if_pos (show releaseOf "8.1.1.0" ≤ revision from by omega)]
              · simp only [sdk_for_revision]
                rw [if_neg (show ¬(releaseOf "7.2.0.0" ≤ revision ∧
                    revision < releaseOf "8.0.0.0") from by omega),
                  if_neg (show ¬(releaseOf "8.0.0.0" ≤ revision ∧
                    revision < releaseOf "8.0.1.0") from by omega),
                  if_neg (show ¬(releaseOf "8.0.1.0" ≤ revision ∧
                    revision < releaseOf "8.1.0.0") from by omega),
                  if_neg (show ¬(releaseOf "8.1.0.0" ≤ revision ∧
                    revision < releaseOf "8.1.1.0") from by omega),
                  if_pos ⟨show releaseOf "8.1.1.0" ≤ revision from by omega, h5⟩]
            · by_cases h6 : revision < releaseOf "8.2.1.0"
              · refine ⟨SDK.isi_sdk_8_2_0, ?_, ?_⟩
                · simp only [greatestFloorBinding, sdkFloors, List.foldl]
                  rw [if_neg (show ¬releaseOf "8.2.2.0" ≤ revision from by omega),
                    if_neg (show ¬releaseOf "8.2.1.0" ≤ revision from by omega),
                    if_pos (show releaseOf "8.2.0.0" ≤ revision from by omega)]
                · simp only [sdk_for_revision]
                  rw [if_neg (show ¬(releaseOf "7.2.0.0" ≤ revision ∧
                      revision < releaseOf "8.0.0.0") from by omega),
                    if_neg (show ¬(releaseOf "8.0.0.0" ≤ revision ∧
                      revision < releaseOf "8.0.1.0") from by omega),
                    if_neg (show ¬(releaseOf "8.0.1.0" ≤ revision ∧
                      revision < releaseOf "8.1.0.0") from by omega),
                    if_neg (show ¬(releaseOf "8.1.0.0" ≤ revision ∧
                      revision < releaseOf "8.1.1.0") from by omega),
                    if_neg (show ¬(releaseOf "8.1.1.0" ≤ revision ∧
                      revision < releaseOf "8.2.0.0") from by omega),
                    if_pos ⟨show releaseOf "8.2.0.0" ≤ revision from by omega, h6⟩]
              · by_cases h7 : revision < releaseOf "8.2.2.0"
                · refine ⟨SDK.isi_sdk_8_2_1, ?_, ?_⟩
                  · simp only [greatestFloorBinding, sdkFloors, List.foldl]
                    rw [if_neg (show ¬releaseOf "8.2.2.0" ≤ revision from by omega),
                      if_pos (show releaseOf "8.2.1.0" ≤ revision from by omega)]
                  · simp only [sdk_for_revision]
                    rw [if_neg (show ¬(releaseOf "7.2.0.0" ≤ revision ∧
                        revision < releaseOf "8.0.0.0") from by omega),
                      if_neg (show ¬(releaseOf "8.0.0.0" ≤ revision ∧
                        revision < releaseOf "8.0.1.0") from by omega),
                      if_neg (show ¬(releaseOf "8.0.1.0" ≤ revision ∧
                        revision < releaseOf "8.1.0.0") from by omega),
                      if_neg (show ¬(releaseOf "8.1.0.0" ≤ revision ∧
                        revision < releaseOf "8.1.1.0") from by omega),
                      if_neg (show ¬(releaseOf "8.1.1.0" ≤ revision ∧
                        revision < releaseOf "8.2.0.0") from by omega),
                      if_neg (show ¬(releaseOf "8.2.0.0" ≤ revision ∧
                        revision < releaseOf "8.2.1.0") from by omega),
                      if_pos ⟨show releaseOf "8.2.1.0" ≤ revision from by omega, h7⟩]
                · refine ⟨SDK.isi_sdk_8_2_2, ?_, ?_⟩
                  · simp only [greatestFloorBinding, sdkFloors, List.foldl]
                    rw [if_pos (show releaseOf "8.2.2.0" ≤ revision from by omega)]
                  · simp only [sdk_for_revision]
                    rw [if_neg (show ¬(releaseOf "7.2.0.0" ≤ revision ∧
                        revision < releaseOf "8.0.0.0") from by omega),
                      if_neg (show ¬(releaseOf "8.0.0.0" ≤ revision ∧
                        revision < releaseOf "8.0.1.0") from by omega),
                      if_neg (show ¬(releaseOf "8.0.1.0" ≤ revision ∧
                        revision < releaseOf "8.1.0.0") from by omega),
                      if_neg (show ¬(releaseOf "8.1.0.0" ≤ revision ∧
                        revision < releaseOf "8.1.1.0") from by omega),
                      if_neg (show ¬(releaseOf "8.1.1.0" ≤ revision ∧
                        revision < releaseOf "8.2.0.0") from by omega),
                      if_neg (show ¬(releaseOf "8.2.0.0" ≤ revision ∧
                        revision < releaseOf "8.2.1.0") from by omega),
                      if_neg (show ¬(releaseOf "8.2.1.0" ≤ revision ∧
                        revision < releaseOf "8.2.2.0") from by omega),
                      if_pos ⟨show releaseOf "8.2.2.0" ≤ revision from by omega, h9⟩]
  · intro revision hout
    have hbands : ∀ strict, sdk_for_revision revision strict =
        if strict then Except.error (VersionErr.unsupportedVersion revision)
        else Except.ok SDK.isi_sdk_8_2_2 := by
      intro strict
      rcases hout with hlow | hhigh <;>
        · simp only [sdk_for_revision]
          rw [if_neg (show ¬(releaseOf "7.2.0.0" ≤ revision ∧
              revision < releaseOf "8.0.0.0") from by omega),
            if_neg (show ¬(releaseOf "8.0.0.0" ≤ revision ∧
              revision < releaseOf "8.0.1.0") from by omega),
            if_neg (show ¬(releaseOf "8.0.1.0" ≤ revision ∧
              revision < releaseOf "8.1.0.0") from by omega),
            if_neg (show ¬(releaseOf "8.1.0.0" ≤ revision ∧
              revision < releaseOf "8.1.1.0") from by omega),
            if_neg (show ¬(releaseOf "8.1.1.0" ≤ revision ∧
              revision < releaseOf "8.2.0.0") from by omega),
            if_neg (show ¬(releaseOf "8.2.0.0" ≤ revision ∧
              revision < releaseOf "8.2.1.0") from by omega),
            if_neg (show ¬(releaseOf "8.2.1.0" ≤ revision ∧
              revision < releaseOf "8.2.2.0") from by omega),
            if_neg (show ¬(releaseOf "8.2.2.0" ≤ revision ∧
              revision < releaseOf "8.2.3.0") from by omega)]
    exact ⟨(hbands true).trans (if_pos rfl), (hbands false).trans
      (if_neg Bool.false_ne_true)⟩

/-- Witness for C6: revision `0x801025000000010` (release 8.1.2.0) lies in
the band `[8.1.1.0, 8.2.0.0)`, so strict selection succeeds and agrees with
the greatest-floor table rule. -/
theorem sdk_for_revision_selection_witness :
    ∃ b, greatestFloorBinding 0x801025000000010 = some b ∧
      sdk_for_revision 0x801025000000010 true = Except.ok b :=
  sdk_for_revision_selection.2.1 0x801025000000010 true (by decide) (by decide)

end IHT
